import Mathlib

/-!
Verification of the opencode-worktree core: the layered configuration store,
the batch worktree-removal logic, the hook-execution flow and the interactive
session state machine, shallowly embedded from the TypeScript sources
(`src/ui.ts`, `src/config.ts`, `src/opencode.ts`, `src/types.ts`).

External collaborators (the git executable, the filesystem, the shell running
hooks) are modelled as explicit inputs: the on-disk configuration document is
a value of `DiskState`, git-call outcomes are supplied by a `GitEnv`, and UI
events carry the responses of the external calls their handlers make.
-/

namespace OCW

/-- Per-repo configuration options (`Config` in `src/types.ts`); the three
fields are optional, `undefined` is modelled as `none`. -/
structure Config where
  postCreateHook : Option String := none
  openCommand : Option String := none
  launchCommand : Option String := none
deriving DecidableEq, Repr

/-- The fully-populated `default` section of the global config document:
`loadGlobalConfig` always fills all three fields with strings. -/
structure DefaultConfig where
  postCreateHook : String
  openCommand : String
  launchCommand : String
deriving DecidableEq, Repr

/-- `getDefaultConfig()` from the config store. -/
def getDefaultConfig : DefaultConfig :=
  { postCreateHook := "", openCommand := "", launchCommand := "opencode" }

/-- In-memory global configuration (`GlobalConfig` in `src/types.ts`):
`default` plus per-repo overrides keyed by the normalized remote URL.
`repos` mirrors a JS object as an insertion-ordered association list. -/
structure GlobalConfig where
  default : DefaultConfig
  repos : List (String × Config)
deriving DecidableEq, Repr

/-- A JSON object field as the config loader inspects it: absent, a string,
or present with a non-string value. -/
inductive JField where
  | absent
  | str (s : String)
  | other
deriving DecidableEq, Repr

/-- The three config fields of a raw JSON object. -/
structure RawFields where
  postCreateHook : JField
  openCommand : JField
  launchCommand : JField
deriving DecidableEq, Repr

/-- The parsed `default` property of the on-disk document. -/
inductive RawDefault where
  | notObject
  | obj (fields : RawFields)
deriving DecidableEq, Repr

/-- A value stored under `repos[key]` in the on-disk document. -/
inductive RawRepoVal where
  | notObject
  | obj (fields : RawFields)
deriving DecidableEq, Repr

/-- A parsed top-level config document. `repos = none` models an absent or
non-object `repos` property. -/
structure RawDoc where
  default : RawDefault
  repos : Option (List (String × RawRepoVal))
deriving DecidableEq, Repr

/-- The state of the persisted config document as the store can find it. -/
inductive DiskState where
  | missing
  | unreadable
  | notObject
  | doc (d : RawDoc)
deriving DecidableEq, Repr

/-- JS object property assignment on an insertion-ordered association list:
overwrite in place when the key exists, append otherwise. -/
def objSet {α : Type} (l : List (String × α)) (k : String) (v : α) :
    List (String × α) :=
  if l.any (fun p => p.1 == k) then
    l.map (fun p => if p.1 == k then (k, v) else p)
  else l ++ [(k, v)]

/-- JS `delete obj[k]`. -/
def objDel {α : Type} (l : List (String × α)) (k : String) : List (String × α) :=
  l.filter (fun p => !(p.1 == k))

/-- JS property lookup `obj[k]`. -/
def objGet {α : Type} (l : List (String × α)) (k : String) : Option α :=
  (l.find? (fun p => p.1 == k)).map (fun p => p.2)

/-- Field-level parse of a raw object into a partial `Config`: only string
values are taken (`typeof v.x === "string"`). -/
def parseFields (f : RawFields) : Config :=
  { postCreateHook := match f.postCreateHook with | .str s => some s | _ => none
    openCommand := match f.openCommand with | .str s => some s | _ => none
    launchCommand := match f.launchCommand with | .str s => some s | _ => none }

/-- Parsing the `default` section: start from `getDefaultConfig()` and
override each field that is a string. -/
def parseDefault (d : RawDefault) : DefaultConfig :=
  match d with
  | .notObject => getDefaultConfig
  | .obj f =>
    { postCreateHook :=
        match f.postCreateHook with
        | .str s => s
        | _ => getDefaultConfig.postCreateHook
      openCommand :=
        match f.openCommand with
        | .str s => s
        | _ => getDefaultConfig.openCommand
      launchCommand :=
        match f.launchCommand with
        | .str s => s
        | _ => getDefaultConfig.launchCommand }

/-- `Object.keys(c).length === 0` for a parsed partial config. -/
def Config.isEmpty (c : Config) : Bool :=
  c.postCreateHook.isNone && c.openCommand.isNone && c.launchCommand.isNone

/-- One entry of the `repos` loop of `loadGlobalConfig`: an object-valued
entry is parsed field-by-field and inserted only when at least one field
parsed to a string. -/
def loadRepoStep (acc : List (String × Config)) (kv : String × RawRepoVal) :
    List (String × Config) :=
  match kv.2 with
  | .notObject => acc
  | .obj f =>
    let rc := parseFields f
    if rc.isEmpty then acc else objSet acc kv.1 rc

/-- The `repos` loop of `loadGlobalConfig`. -/
def loadRepos (l : List (String × RawRepoVal)) : List (String × Config) :=
  l.foldl loadRepoStep []

/-- `loadGlobalConfig()`: a missing, unreadable or non-object document yields
the empty global config; otherwise the document is validated field by field. -/
def loadGlobalConfig (disk : DiskState) : GlobalConfig :=
  match disk with
  | .doc d =>
    { default := parseDefault d.default
      repos := match d.repos with | some l => loadRepos l | none => [] }
  | _ => { default := getDefaultConfig, repos := [] }

/-- `LoadRepoConfigResult` in `src/types.ts`. -/
structure LoadRepoConfigResult where
  config : Config
  repoKey : Option String
deriving DecidableEq, Repr

/-- `loadRepoConfig(repoRoot)`: field-level merge of `default` with
`repos[repoKey]`. The repo key is the result of the external `getRepoKey`
call and is passed in as a parameter. -/
def loadRepoConfig (repoKey : Option String) (disk : DiskState) :
    LoadRepoConfigResult :=
  let g := loadGlobalConfig disk
  let base : Config :=
    { postCreateHook := some g.default.postCreateHook
      openCommand := some g.default.openCommand
      launchCommand := some g.default.launchCommand }
  let config :=
    match repoKey with
    | some k =>
      match objGet g.repos k with
      | some rc =>
        { postCreateHook :=
            if rc.postCreateHook.isSome then rc.postCreateHook
            else base.postCreateHook
          openCommand :=
            if rc.openCommand.isSome then rc.openCommand else base.openCommand
          launchCommand :=
            if rc.launchCommand.isSome then rc.launchCommand
            else base.launchCommand }
      | none => base
    | none => base
  { config := config, repoKey := repoKey }

/-- JSON serialization of a string-or-`undefined` field: `JSON.stringify`
drops an `undefined` property. -/
def serOpt (v : Option String) : JField :=
  match v with | some s => .str s | none => .absent

/-- Serialization of a partial repo config back into the document. -/
def serConfig (c : Config) : RawFields :=
  ⟨serOpt c.postCreateHook, serOpt c.openCommand, serOpt c.launchCommand⟩

/-- Serialization of the always-populated `default` section. -/
def serDefault (d : DefaultConfig) : RawFields :=
  ⟨.str d.postCreateHook, .str d.openCommand, .str d.launchCommand⟩

/-- The JS comparison `config.f !== default.f` made by `saveRepoConfig`:
a present field differing from the default, or an `undefined` field (which
never equals a string). -/
def fieldDiffers (c : Option String) (d : String) : Bool :=
  !(c == some d)

/-- The serialized value of one diffed field as it reaches the persisted
document: written only when the saved value is a string differing from the
default (an `undefined` diff entry survives `Object.keys` but is dropped by
`JSON.stringify`). -/
def diffField (c : Option String) (d : String) : JField :=
  match c with
  | some s => if s = d then .absent else .str s
  | none => .absent

/-- `saveRepoConfig(repoRoot, config)`: fails when there is no repo key;
otherwise reloads the document, stores under `repos[key]` only the fields
differing from `default` (deleting the key when nothing differs) and
rewrites the whole document. Returns the success flag and the new disk
state after a successful write. -/
def saveRepoConfig (repoKey : Option String) (disk : DiskState) (config : Config) :
    Bool × DiskState :=
  match repoKey with
  | none => (false, disk)
  | some k =>
    let g := loadGlobalConfig disk
    let anyDiff :=
      fieldDiffers config.postCreateHook g.default.postCreateHook ||
      fieldDiffers config.openCommand g.default.openCommand ||
      fieldDiffers config.launchCommand g.default.launchCommand
    let serRepos := g.repos.map (fun p => (p.1, RawRepoVal.obj (serConfig p.2)))
    let entry : RawFields :=
      ⟨diffField config.postCreateHook g.default.postCreateHook,
       diffField config.openCommand g.default.openCommand,
       diffField config.launchCommand g.default.launchCommand⟩
    let newRepos :=
      if anyDiff then objSet serRepos k (.obj entry) else objDel serRepos k
    (true, .doc { default := .obj (serDefault g.default), repos := some newRepos })

/-! ### `String.prototype.trim` and the config editor save handler -/

/-- The characters `String.prototype.trim` removes: ECMAScript WhiteSpace
and LineTerminator code points. -/
def isJsWhitespace (c : Char) : Bool :=
  c = ' ' || c = '\t' || c = '\n' || c = '\r' ||
  c = '\x0b' || c = '\x0c' || c = '\u00A0' || c = '\uFEFF' ||
  c = '\u1680' || ('\u2000' ≤ c && c ≤ '\u200A') ||
  c = '\u2028' || c = '\u2029' || c = '\u202F' || c = '\u205F' || c = '\u3000'

/-- Leading-whitespace removal on the character list. -/
def trimLeft (l : List Char) : List Char :=
  l.dropWhile isJsWhitespace

/-- Trailing-whitespace removal on the character list. -/
def trimRight (l : List Char) : List Char :=
  (l.reverse.dropWhile isJsWhitespace).reverse

/-- JS `s.trim()`. -/
def jsTrim (s : String) : String :=
  ⟨trimRight (trimLeft s.data)⟩

/-- `handleConfigSave` (src/ui.ts): each editor field (`input?.value || ""`)
is trimmed, and only fields that are non-empty after trimming are put on the
saved `Config` object. The inputs are the raw editor field values
(`none` models a null input renderable). -/
def handleConfigSave (hookVal openVal launchVal : Option String) : Config :=
  let hookValue := jsTrim (hookVal.getD "")
  let openValue := jsTrim (openVal.getD "")
  let launchValue := jsTrim (launchVal.getD "")
  { postCreateHook := if hookValue ≠ "" then some hookValue else none
    openCommand := if openValue ≠ "" then some openValue else none
    launchCommand := if launchValue ≠ "" then some launchValue else none }

/-- The key-value pairs `JSON.stringify` writes for a `Config` in the
repo-local config store (`src/config.ts`): only present fields appear, so
the empty config is persisted as the empty object. -/
def configJsonFields (c : Config) : List (String × String) :=
  (match c.postCreateHook with | some s => [("postCreateHook", s)] | none => []) ++
  (match c.openCommand with | some s => [("openCommand", s)] | none => []) ++
  (match c.launchCommand with | some s => [("launchCommand", s)] | none => [])

/-! ### Worktree records and the git-facing operations -/

/-- `WorktreeInfo` in `src/types.ts`. The last-modified timestamp is an
epoch value (`none` models a null `Date`). -/
structure WorktreeInfo where
  path : String
  head : String
  branch : Option String
  isDetached : Bool
  isDirty : Bool
  isOnRemote : Bool
  lastModified : Option Nat
deriving DecidableEq, Repr

/-- Modelled from the spec: `isMainWorktree(repoRoot, path)` is path
equality (`src/git.ts` is absent from the sources). -/
def isMainWorktree (repoRoot path : String) : Bool :=
  repoRoot == path

/-- Outcomes of the external git calls a removal operation makes: the result
of `unlinkWorktree` per path, of the local branch delete per branch, and the
`hasUncommittedChanges` probe per path. -/
structure GitEnv where
  unlinkOk : String → Bool
  branchDeleteOk : String → Bool
  dirty : String → Bool

/-- A git invocation issued by a removal operation. -/
inductive GitCall where
  | unlink (path : String) (force : Bool)
  | deleteBranch (branch : String)
deriving DecidableEq, Repr

/-- Modelled from the spec: `unlinkWorktree(repoRoot, path, force)`
(`src/git.ts` is absent) — a single remove call whose success git reports. -/
def unlinkWorktreeM (env : GitEnv) (path : String) (force : Bool) :
    Bool × List GitCall :=
  (env.unlinkOk path, [.unlink path force])

/-- The phase at which `deleteWorktree` failed. -/
inductive DeleteStep where
  | unlink
  | branch
deriving DecidableEq, Repr

/-- Modelled from the spec: `deleteWorktree(repoRoot, path, branch, force)`
(`src/git.ts` is absent) — two-phase: unlink, then local branch delete.
A failed unlink reports step `unlink` and skips the branch phase; a failed
branch delete reports step `branch` (the worktree is not restored). -/
def deleteWorktreeM (env : GitEnv) (path branch : String) (force : Bool) :
    (Bool × Option DeleteStep) × List GitCall :=
  if env.unlinkOk path then
    if env.branchDeleteOk branch then
      ((true, none), [.unlink path force, .deleteBranch branch])
    else
      ((false, some .branch), [.unlink path force, .deleteBranch branch])
  else
    ((false, some .unlink), [.unlink path force])

/-- The action chosen in a removal confirmation dialog. -/
inductive ConfirmAction where
  | unlink
  | delete
  | cancel
deriving DecidableEq, Repr

/-- One iteration of the `handleBatchConfirmAction` loop (src/ui.ts):
whether the item counted as a success, with the git calls it issued. A
`delete` of a record with no branch (detached HEAD) downgrades to an
unlink; `cancel` never reaches the loop. -/
def batchItem (env : GitEnv) (action : ConfirmAction) (wt : WorktreeInfo) :
    Bool × List GitCall :=
  let isDirty := env.dirty wt.path
  match action with
  | .unlink => unlinkWorktreeM env wt.path isDirty
  | .delete =>
    match wt.branch with
    | none => unlinkWorktreeM env wt.path isDirty
    | some b =>
      let r := deleteWorktreeM env wt.path b isDirty
      (r.1.1, r.2)
  | .cancel => (true, [])

/-- The aggregate a batch removal reports. -/
structure BatchResult where
  successCount : Nat
  failCount : Nat
  calls : List GitCall
  cancelled : Bool
deriving DecidableEq, Repr

/-- One accumulation step of the batch loop. -/
def batchFold (env : GitEnv) (action : ConfirmAction)
    (acc : BatchResult) (wt : WorktreeInfo) : BatchResult :=
  let r := batchItem env action wt
  { acc with
    successCount := acc.successCount + (if r.1 then 1 else 0)
    failCount := acc.failCount + (if r.1 then 0 else 1)
    calls := acc.calls ++ r.2 }

/-- `handleBatchConfirmAction` (src/ui.ts): on cancel, clear and return;
otherwise iterate the whole selected set sequentially, counting successes
and failures, never aborting on an individual failure. -/
def handleBatchConfirmAction (env : GitEnv) (action : ConfirmAction)
    (worktrees : List WorktreeInfo) : BatchResult :=
  match action with
  | .cancel => { successCount := 0, failCount := 0, calls := [], cancelled := true }
  | _ =>
    worktrees.foldl (batchFold env action)
      { successCount := 0, failCount := 0, calls := [], cancelled := false }

/-- The delete-eligible list `enterSelectMode` builds (src/ui.ts): the
listing with the main worktree filtered out. -/
def deletableWorktrees (repoRoot : String) (wts : List WorktreeInfo) :
    List WorktreeInfo :=
  wts.filter (fun wt => !(isMainWorktree repoRoot wt.path))

/-- Modelled from the spec: well-formedness of a `listWorktrees` result
(`src/git.ts` is absent) — records keyed by unique absolute path, in tool
order, the first record being the main worktree at the repo root. -/
def WellFormedListing (repoRoot : String) (wts : List WorktreeInfo) : Prop :=
  (wts.map WorktreeInfo.path).Nodup ∧
  wts.head?.map WorktreeInfo.path = some repoRoot

/-! ### The interactive session state machine (`WorktreeSelector` in src/ui.ts)

Rendering (colors, labels, status text) is presentation and is not modelled;
the state keeps the mode flags, the selection set, the pending hook data and
the focus/visibility of the main list, which the handlers manage. External
calls are modelled as emitted `Effect`s, and their results reach the handlers
as parameters. -/

/-- The result of `runPostCreateHook`'s completion callback
(`HookResult` in src/hooks.ts). -/
structure HookResult where
  success : Bool
  exitCode : Option Int
deriving DecidableEq, Repr

/-- Modelled from the spec: the completion result the hook runner reports
(`src/hooks.ts` is absent) — `success = (exitCode == 0)`; a spawn error
reports no exit code and counts as failure. -/
def hookResultOfExit (exitCode : Option Int) : HookResult :=
  { success := exitCode == some 0, exitCode := exitCode }

/-- An entry of the main list: the synthetic create action
(`CREATE_NEW_WORKTREE_VALUE`) or a worktree record. -/
inductive SelectItem where
  | createEntry
  | worktree (wt : WorktreeInfo)
deriving DecidableEq, Repr

/-- An externally visible action of the session. -/
inductive Effect where
  | launch (cwd : Option String) (cmd : Option String)
  | exitProcess (code : Int)
  | runHookProc (path : String) (cmd : String)
  | listRefresh (selectPath : Option String)
  | destroyRenderer
deriving DecidableEq, Repr

/-- The mutable fields of `WorktreeSelector` the handlers read or write. -/
structure UIState where
  isConfirming : Bool
  isCreatingWorktree : Bool
  isSelectingForDelete : Bool
  isRunningHook : Bool
  hookFailed : Bool
  isEditingConfig : Bool
  isFirstTimeSetup : Bool
  selectFocused : Bool
  selectVisible : Bool
  selectedForDelete : Finset String
  pendingWorktreePath : Option String
  hookOutput : List String
  hookTimeoutPending : Bool
  hookAbortAvailable : Bool
  hookProcLive : Bool
  repoRoot : Option String
  launchCmdCfg : Option String
  terminated : Bool
deriving DecidableEq

/-- `cleanup(shouldExit)`: blur the widgets, destroy the renderer and exit
the process with code 0 when asked to. -/
def cleanup (shouldExit : Bool) (s : UIState) : UIState × List Effect :=
  ({ s with selectFocused := false, terminated := s.terminated || shouldExit },
   .destroyRenderer :: if shouldExit then [.exitProcess 0] else [])

/-- `loadWorktrees(selectWorktreePath?)`: re-resolve the repo root (the
response is a parameter), list the worktrees and optionally preselect a
path. -/
def loadWorktreesSt (newRoot : Option String) (s : UIState)
    (selectPath : Option String) : UIState × List Effect :=
  ({ s with repoRoot := newRoot }, [.listRefresh selectPath])

/-- `hideHookOutput()`: leave the hook modes and drop the pending data —
including the pending worktree path. -/
def hideHookOutput (s : UIState) : UIState :=
  { s with isRunningHook := false, hookFailed := false, hookOutput := [],
           pendingWorktreePath := none }

/-- `handleHookFailureChoice(choice)`: "open" hides the hook output and then
launches at `this.pendingWorktreePath` (already nulled by `hideHookOutput`);
any other choice hides the hook output and reloads the list, passing
`this.pendingWorktreePath || undefined` (likewise already nulled). -/
def handleHookFailureChoice (choice : String) (newRoot : Option String)
    (s : UIState) : UIState × List Effect :=
  if choice == "open" && s.pendingWorktreePath.isSome then
    let s1 := hideHookOutput s
    let r := cleanup false s1
    (r.1, r.2 ++ [.launch r.1.pendingWorktreePath r.1.launchCmdCfg])
  else
    let s1 := hideHookOutput s
    let r := loadWorktreesSt newRoot s1 s1.pendingWorktreePath
    ({ r.1 with selectVisible := true, selectFocused := true }, r.2)

/-- `runHook(worktreePath, command)`: enter hook-running mode, clear the
create-input mode, hide the list and start the streaming hook process. -/
def runHook (path cmd : String) (s : UIState) : UIState × List Effect :=
  ({ s with isRunningHook := true, hookFailed := false, hookOutput := [],
            isCreatingWorktree := false, selectVisible := false,
            hookAbortAvailable := true, hookProcLive := true },
   [.runHookProc path cmd])

/-- `onHookSuccess()`: schedule the brief success display delay (1000 ms);
the launch itself happens in the timeout callback. -/
def onHookSuccess (s : UIState) : UIState × List Effect :=
  ({ s with hookTimeoutPending := true }, [])

/-- The `setTimeout` callback of `onHookSuccess`: hide the hook output
first (which nulls `pendingWorktreePath`), then launch only if
`this.pendingWorktreePath` is still set. -/
def onHookSuccessTimeout (s : UIState) : UIState × List Effect :=
  let s1 := hideHookOutput { s with hookTimeoutPending := false }
  if s1.pendingWorktreePath.isSome then
    let r := cleanup false s1
    (r.1, r.2 ++ [.launch r.1.pendingWorktreePath r.1.launchCmdCfg])
  else (s1, [])

/-- `onHookFailure(exitCode)`: mark the hook-failed sub-state and (when the
output container is still up) show the failure choice selector. -/
def onHookFailure (s : UIState) : UIState × List Effect :=
  ({ s with hookFailed := true }, [])

/-- The `onComplete` callback wired in `runHook`: clear the abort handle and
dispatch on the hook result. -/
def onHookComplete (r : HookResult) (s : UIState) : UIState × List Effect :=
  let s0 := { s with hookAbortAvailable := false, hookProcLive := false }
  if r.success then onHookSuccess s0 else onHookFailure s0

/-- `showCreateWorktreeInput()`: enter create mode, hide and blur the list. -/
def showCreateWorktreeInput (s : UIState) : UIState :=
  { s with isCreatingWorktree := true, selectVisible := false,
           selectFocused := false }

/-- `hideCreateWorktreeInput(selectWorktreePath?)`: leave create mode,
restore and focus the list, reload the worktrees. -/
def hideCreateWorktreeInput (selectPath : Option String)
    (newRoot : Option String) (s : UIState) : UIState × List Effect :=
  let s1 := { s with isCreatingWorktree := false, selectVisible := true,
                     selectFocused := true }
  loadWorktreesSt newRoot s1 selectPath

/-- The outcome of the blocking `createWorktree` call. -/
inductive CreateResult where
  | ok (path : String)
  | err (msg : String)
deriving DecidableEq, Repr

/-- JS truthiness of `config.postCreateHook`: present and non-empty. -/
def truthyHook (c : Config) : Bool :=
  match c.postCreateHook with
  | some h => !(h == "")
  | none => false

/-- `handleCreateWorktree(branchName)`: reject an empty name or a missing
repo; on create success either start the configured post-create hook with
the new path pending, or launch the tool in the new worktree directly. The
create outcome and the freshly loaded config are parameters (results of the
blocking external calls). -/
def handleCreateWorktree (branchName : String) (res : CreateResult)
    (loadedCfg : Config) (newRoot : Option String) (s : UIState) :
    UIState × List Effect :=
  if jsTrim branchName == "" then (s, [])
  else
    match s.repoRoot with
    | none => (s, [])
    | some _ =>
      match res with
      | .err _ => (s, [])
      | .ok path =>
        if truthyHook loadedCfg then
          let s1 := { s with pendingWorktreePath := some path }
          runHook path (loadedCfg.postCreateHook.getD "") s1
        else
          let r1 := hideCreateWorktreeInput none newRoot s
          let r2 := cleanup false r1.1
          (r2.1, r1.2 ++ r2.2 ++ [.launch (some path) r2.1.launchCmdCfg])

/-- `showConfigEditor()`: refuse without a repo root; otherwise enter config
edit mode, hide and blur the list. -/
def showConfigEditor (s : UIState) : UIState :=
  match s.repoRoot with
  | none => s
  | some _ =>
    { s with isEditingConfig := true, selectVisible := false,
             selectFocused := false }

/-- `hideConfigEditor()`: leave config edit mode, restore and (after a
0 ms delay) focus the list. -/
def hideConfigEditor (s : UIState) : UIState :=
  { s with isEditingConfig := false, isFirstTimeSetup := false,
           selectVisible := true, selectFocused := true }

/-- `handleConfigSave()`: build the trimmed config from the three editor
fields, save it, and on success remember the new launch command; always
close the editor. The field values and the save result are parameters. -/
def handleConfigSaveSt (hv ov lv : Option String) (saveOk : Bool)
    (s : UIState) : UIState :=
  match s.repoRoot with
  | none => hideConfigEditor s
  | some _ =>
    let c := handleConfigSave hv ov lv
    if saveOk then hideConfigEditor { s with launchCmdCfg := c.launchCommand }
    else hideConfigEditor s

/-- `enterSelectMode()`: with a repo and at least one non-main worktree,
enter multi-select delete mode with an empty selection (the list keeps
focus). -/
def enterSelectMode (wts : List WorktreeInfo) (s : UIState) : UIState :=
  match s.repoRoot with
  | none => s
  | some rr =>
    if (deletableWorktrees rr wts).isEmpty then s
    else { s with isSelectingForDelete := true, selectedForDelete := ∅ }

/-- `exitSelectMode()`: leave multi-select mode, clear the selection and
reload the list. -/
def exitSelectMode (newRoot : Option String) (s : UIState) :
    UIState × List Effect :=
  loadWorktreesSt newRoot
    { s with isSelectingForDelete := false, selectedForDelete := ∅ } none

/-- The core of `toggleWorktreeSelection()`: refuse to toggle the main
worktree, otherwise flip membership of the path in the selected set. -/
def toggleWorktreeSelectionSt (wt : WorktreeInfo) (s : UIState) : UIState :=
  if s.repoRoot.any (fun rr => isMainWorktree rr wt.path) then s
  else
    { s with selectedForDelete :=
        if wt.path ∈ s.selectedForDelete then s.selectedForDelete.erase wt.path
        else insert wt.path s.selectedForDelete }

/-- `toggleWorktreeSelection()` as dispatched on the currently highlighted
option (`none` models no option; the create entry has no `path`). -/
def toggleWorktreeSelectionOpt (opt : Option SelectItem) (s : UIState) :
    UIState :=
  match opt with
  | none => s
  | some .createEntry => s
  | some (.worktree wt) =>
    if wt.path == "" then s else toggleWorktreeSelectionSt wt s

/-- `showBatchDeleteConfirmation(worktrees)`: move from multi-select mode to
the batch confirmation dialog. -/
def showBatchDeleteConfirmation (s : UIState) : UIState :=
  { s with isConfirming := true, isSelectingForDelete := false,
           selectVisible := false, selectFocused := false }

/-- `confirmBatchDelete()`: with a non-empty selection and a repo root, open
the batch confirmation dialog. -/
def confirmBatchDelete (s : UIState) : UIState :=
  if s.selectedForDelete = ∅ then s
  else
    match s.repoRoot with
    | none => s
    | some _ => showBatchDeleteConfirmation s

/-- `hideConfirmDialog()`: close the dialog, restore and focus the list and
reload the worktrees. -/
def hideConfirmDialog (newRoot : Option String) (s : UIState) :
    UIState × List Effect :=
  let s1 := { s with isConfirming := false, selectVisible := true,
                     selectFocused := true }
  loadWorktreesSt newRoot s1 none

/-- `handleBatchConfirmAction` at the session level: the git work is
`handleBatchConfirmAction` above; the session clears the selection and
closes the dialog on every branch. -/
def handleBatchConfirmActionSt (env : GitEnv) (action : ConfirmAction)
    (wts : List WorktreeInfo) (newRoot : Option String) (s : UIState) :
    UIState × List Effect :=
  if action == ConfirmAction.cancel || s.repoRoot.isNone then
    hideConfirmDialog newRoot { s with selectedForDelete := ∅ }
  else
    let _batch := handleBatchConfirmAction env action wts
    hideConfirmDialog newRoot { s with selectedForDelete := ∅ }

/-- `handleSelection(value)`: the synthetic create entry opens the create
input; a worktree entry (when the launch command is available) tears the UI
down and launches the tool there. -/
def handleSelection (item : SelectItem) (avail : Bool) (s : UIState) :
    UIState × List Effect :=
  match item with
  | .createEntry => (showCreateWorktreeInput s, [])
  | .worktree wt =>
    if !avail then (s, [])
    else
      let r := cleanup false s
      (r.1, r.2 ++ [.launch (some wt.path) r.1.launchCmdCfg])

/-- The `ITEM_SELECTED` listener on the main list: ignored while
confirming, creating or selecting for delete. -/
def onMainSelectItem (item : SelectItem) (avail : Bool) (s : UIState) :
    UIState × List Effect :=
  if s.isConfirming || s.isCreatingWorktree || s.isSelectingForDelete then
    (s, [])
  else handleSelection item avail s

/-- A keyboard event (`KeyEvent`). -/
structure KeyEvent where
  ctrl : Bool
  name : String
deriving DecidableEq, Repr

/-- Responses of the external calls a keypress handler may make: the
re-resolved repo root, the fresh worktree listing, the current editor field
values, the config save result and the currently highlighted option. -/
structure EnvResp where
  newRoot : Option String
  wts : List WorktreeInfo
  hookVal : Option String
  openVal : Option String
  launchVal : Option String
  saveOk : Bool
  selItem : Option SelectItem
deriving DecidableEq

/-- `handleKeypress(key)`: the mode-guarded hotkey dispatcher. -/
def handleKeypress (key : KeyEvent) (env : EnvResp) (s : UIState) :
    UIState × List Effect :=
  if key.ctrl && key.name == "c" then
    if s.isRunningHook && s.hookAbortAvailable then
      let s0 := { s with hookAbortAvailable := false }
      let s1 := hideHookOutput s0
      let r := loadWorktreesSt env.newRoot s1 s1.pendingWorktreePath
      ({ r.1 with selectVisible := true, selectFocused := true }, r.2)
    else cleanup true s
  else if s.isRunningHook && !s.hookFailed then (s, [])
  else if s.isRunningHook && s.hookFailed then
    if key.name == "escape" then handleHookFailureChoice "cancel" env.newRoot s
    else (s, [])
  else if s.isConfirming then
    if key.name == "escape" then hideConfirmDialog env.newRoot s else (s, [])
  else if s.isCreatingWorktree then
    if key.name == "escape" then hideCreateWorktreeInput none env.newRoot s
    else (s, [])
  else if s.isEditingConfig then
    if key.name == "escape" then (hideConfigEditor s, [])
    else if key.name == "return" then
      (handleConfigSaveSt env.hookVal env.openVal env.launchVal env.saveOk s, [])
    else (s, [])
  else if s.isSelectingForDelete then
    if key.name == "escape" || key.name == "q" then exitSelectMode env.newRoot s
    else if key.name == "return" then (toggleWorktreeSelectionOpt env.selItem s, [])
    else if key.name == "d" then (confirmBatchDelete s, [])
    else (s, [])
  else if key.name == "q" || key.name == "escape" then cleanup true s
  else if key.name == "r" then loadWorktreesSt env.newRoot s none
  else if key.name == "n" then (showCreateWorktreeInput s, [])
  else if key.name == "d" then (enterSelectMode env.wts s, [])
  else if key.name == "o" then (s, [])
  else if key.name == "c" then (showConfigEditor s, [])
  else (s, [])

/-- The constructor's initial state: Browse with the list focused, or the
first-time-setup config editor when the repo has no saved config yet. -/
def initState (root : Option String) (launchCmd : Option String)
    (cfgExists : Bool) : UIState :=
  let base : UIState :=
    { isConfirming := false, isCreatingWorktree := false
      isSelectingForDelete := false, isRunningHook := false
      hookFailed := false, isEditingConfig := false, isFirstTimeSetup := false
      selectFocused := true, selectVisible := true, selectedForDelete := ∅
      pendingWorktreePath := none, hookOutput := []
      hookTimeoutPending := false, hookAbortAvailable := false
      hookProcLive := false, repoRoot := root, launchCmdCfg := launchCmd
      terminated := false }
  if root.isSome && !cfgExists then
    showConfigEditor { base with isFirstTimeSetup := true }
  else base

/-- One dispatch of the single-threaded event loop. Each widget event is
available only while its widget exists and is focused: the main list when
focused, the branch input in create mode, the confirm selector in a
confirmation dialog, the failure selector in the hook-failed sub-state.
Hook process callbacks can fire while the child is live (also after a
cooperative abort), and the success timeout once scheduled. -/
inductive Step : UIState → UIState → Prop where
  | keypress (s : UIState) (key : KeyEvent) (env : EnvResp)
      (hterm : s.terminated = false) :
      Step s (handleKeypress key env s).1
  | mainSelect (s : UIState) (item : SelectItem) (avail : Bool)
      (hterm : s.terminated = false) (hfoc : s.selectFocused = true) :
      Step s (onMainSelectItem item avail s).1
  | branchInput (s : UIState) (bn : String) (res : CreateResult)
      (cfg : Config) (newRoot : Option String)
      (hterm : s.terminated = false) (hmode : s.isCreatingWorktree = true) :
      Step s (handleCreateWorktree bn res cfg newRoot s).1
  | confirmSelect (s : UIState) (env : GitEnv) (action : ConfirmAction)
      (wts : List WorktreeInfo) (newRoot : Option String)
      (hterm : s.terminated = false) (hmode : s.isConfirming = true) :
      Step s (handleBatchConfirmActionSt env action wts newRoot s).1
  | hookFailureSelect (s : UIState) (choice : String) (newRoot : Option String)
      (hterm : s.terminated = false) (hrun : s.isRunningHook = true)
      (hfail : s.hookFailed = true) :
      Step s (handleHookFailureChoice choice newRoot s).1
  | hookChunk (s : UIState) (data : String)
      (hterm : s.terminated = false) (hlive : s.hookProcLive = true) :
      Step s { s with hookOutput := s.hookOutput ++ [data] }
  | hookComplete (s : UIState) (exitCode : Option Int)
      (hterm : s.terminated = false) (hlive : s.hookProcLive = true) :
      Step s (onHookComplete (hookResultOfExit exitCode) s).1
  | hookTimeout (s : UIState)
      (hterm : s.terminated = false) (hpend : s.hookTimeoutPending = true) :
      Step s (onHookSuccessTimeout s).1

/-- The session states reachable from a constructor state. -/
inductive Reachable : UIState → Prop where
  | init (root : Option String) (launchCmd : Option String) (cfgExists : Bool) :
      Reachable (initState root launchCmd cfgExists)
  | step {s t : UIState} (hs : Reachable s) (hst : Step s t) : Reachable t

/-- How many of the five mode flags are set. -/
def modeCount (s : UIState) : Nat :=
  (if s.isConfirming then 1 else 0) + (if s.isCreatingWorktree then 1 else 0) +
  (if s.isSelectingForDelete then 1 else 0) +
  (if s.isRunningHook then 1 else 0) + (if s.isEditingConfig then 1 else 0)

/-- The inductive invariant: at most one mode flag is set, and while the
main list is focused no widget of another mode is up. -/
def Inv (s : UIState) : Prop :=
  modeCount s ≤ 1 ∧
  (s.selectFocused = true →
    s.isConfirming = false ∧ s.isCreatingWorktree = false ∧
    s.isEditingConfig = false ∧ s.isRunningHook = false)

/-! ### Process exit codes (src/opencode.ts, src/cli.ts) -/

/-- The exit handler `launchCommand` installs on the launched child
(src/opencode.ts): `typeof code === "number" ? code : 0`. -/
def launchChildExit (code : Option Int) : Int :=
  match code with
  | some n => n
  | none => 0

/-- The `process.exit` the child-exit handler performs: the session mirrors
the launched tool's exit code. -/
def launchExitEffect (code : Option Int) : Effect :=
  .exitProcess (launchChildExit code)

/-- The exit code of the `runApp(...).catch` handler in src/cli.ts, used
when the interactive surface fails to initialize. -/
def runAppCatchExitCode : Int := 1

/-- The always-populated config a caller sees when nothing overrides the
defaults (`{ ...globalConfig.default }`). -/
def configOfDefault (d : DefaultConfig) : Config :=
  { postCreateHook := some d.postCreateHook
    openCommand := some d.openCommand
    launchCommand := some d.launchCommand }

/-- Stated from the spec's round-trip law: the saved fields merged over the
default config — each field is the saved value when present, the default
otherwise. Compared against what the store actually returns. -/
def specSavedMergedOverDefault (c : Config) (d : DefaultConfig) : Config :=
  { postCreateHook := some (c.postCreateHook.getD d.postCreateHook)
    openCommand := some (c.openCommand.getD d.openCommand)
    launchCommand := some (c.launchCommand.getD d.launchCommand) }

/-- The `repos` object of a persisted document, when one exists. -/
def persistedRepos (disk : DiskState) : Option (List (String × RawRepoVal)) :=
  match disk with
  | .doc d => d.repos
  | _ => none

/-! ## Helper lemmas: JS-object association lists -/

theorem find?_map_overwrite_self {α : Type} (l : List (String × α))
    (k : String) (v : α) (h : l.any (fun p => p.1 == k) = true) :
    (l.map (fun p => if p.1 == k then (k, v) else p)).find?
      (fun p => p.1 == k) = some (k, v) := by
  induction l with
  | nil => simp at h
  | cons p t ih =>
    by_cases hp : (p.1 == k) = true
    · simp only [List.map_cons, if_pos hp]
      exact List.find?_cons_of_pos _ (by simp)
    · simp only [List.any_cons, hp, Bool.false_or] at h
      simp only [List.map_cons, if_neg hp]
      rw [List.find?_cons_of_neg (a := p) _ hp]
      exact ih h

theorem objGet_objSet_self {α : Type} (l : List (String × α)) (k : String)
    (v : α) : objGet (objSet l k v) k = some v := by
  unfold objSet objGet
  by_cases h : l.any (fun p => p.1 == k) = true
  · rw [if_pos h, find?_map_overwrite_self l k v h]
    rfl
  · rw [if_neg h, List.find?_append]
    have hl : l.find? (fun p => p.1 == k) = none := by
      rw [List.find?_eq_none]
      intro p hp
      simp only [Bool.not_eq_true, List.any_eq_false] at h
      simpa using h p hp
    rw [hl]
    have h1 : ([(k, v)].find? (fun p => p.1 == k)) = some (k, v) :=
      List.find?_cons_of_pos _ (by simp)
    rw [h1]
    rfl

theorem find?_map_overwrite {α : Type} (l : List (String × α)) (k k2 : String)
    (v : α) (hne : k ≠ k2) :
    (l.map (fun p => if p.1 == k then (k, v) else p)).find?
        (fun p => p.1 == k2) =
      l.find? (fun p => p.1 == k2) := by
  induction l with
  | nil => rfl
  | cons p t ih =>
    by_cases hp : (p.1 == k) = true
    · have hpk : p.1 = k := by simpa using hp
      simp only [List.map_cons, if_pos hp]
      rw [List.find?_cons_of_neg (a := (k, v)) _ (by simp [hne]),
        List.find?_cons_of_neg (a := p) _ (by simp [hpk, hne])]
      exact ih
    · simp only [List.map_cons, if_neg hp]
      by_cases hp2 : (p.1 == k2) = true
      · rw [List.find?_cons_of_pos (a := p) _ hp2,
          List.find?_cons_of_pos (a := p) _ hp2]
      · rw [List.find?_cons_of_neg (a := p) _ hp2,
          List.find?_cons_of_neg (a := p) _ hp2]
        exact ih

theorem objGet_objSet_ne {α : Type} (l : List (String × α)) (k k2 : String)
    (v : α) (hne : k ≠ k2) : objGet (objSet l k v) k2 = objGet l k2 := by
  unfold objSet objGet
  by_cases h : l.any (fun p => p.1 == k) = true
  · rw [if_pos h, find?_map_overwrite l k k2 v hne]
  · rw [if_neg h, List.find?_append]
    have h1 : ([(k, v)].find? (fun p => p.1 == k2)) = none := by
      rw [List.find?_eq_none]
      intro p hp
      simp only [List.mem_singleton] at hp
      simp [hp, hne]
    rw [h1, Option.or_none]

theorem objGet_objDel_self {α : Type} (l : List (String × α)) (k : String) :
    objGet (objDel l k) k = none := by
  unfold objDel objGet
  have h : (l.filter (fun p => !(p.1 == k))).find? (fun p => p.1 == k) = none := by
    rw [List.find?_eq_none]
    intro p hp
    have h2 := List.of_mem_filter hp
    simpa using h2
  rw [h]
  rfl

theorem keys_objSet {α : Type} (l : List (String × α)) (k : String) (v : α)
    (hnd : (l.map Prod.fst).Nodup) :
    ((objSet l k v).map Prod.fst).Nodup := by
  unfold objSet
  by_cases h : l.any (fun p => p.1 == k) = true
  · rw [if_pos h]
    have hkeys : (l.map (fun p => if p.1 == k then (k, v) else p)).map Prod.fst
        = l.map Prod.fst := by
      rw [List.map_map]
      apply List.map_congr_left
      intro p _
      by_cases hp : (p.1 == k) = true
      · have hpk : p.1 = k := by simpa using hp
        simp [hp, hpk]
      · have hne : ¬p.1 = k := by simpa using hp
        simp [hne]
    rw [hkeys]
    exact hnd
  · rw [if_neg h]
    rw [List.map_append]
    simp only [Bool.not_eq_true, List.any_eq_false] at h
    rw [List.nodup_append]
    refine ⟨hnd, by simp, ?_⟩
    intro x hx
    simp only [List.mem_map] at hx
    obtain ⟨p, hp, hpx⟩ := hx
    have := h p hp
    simp only [List.map_cons, List.map_nil, List.mem_singleton]
    intro hxk
    rw [hxk] at hpx
    simp [hpx] at this

theorem keys_objDel {α : Type} (l : List (String × α)) (k : String)
    (hnd : (l.map Prod.fst).Nodup) :
    ((objDel l k).map Prod.fst).Nodup := by
  unfold objDel
  exact hnd.sublist (List.Sublist.map Prod.fst (List.filter_sublist l))

theorem keys_loadRepoStep (acc : List (String × Config))
    (kv : String × RawRepoVal) (hnd : (acc.map Prod.fst).Nodup) :
    ((loadRepoStep acc kv).map Prod.fst).Nodup := by
  unfold loadRepoStep
  match kv with
  | (k1, .notObject) => exact hnd
  | (k1, .obj f) =>
    try dsimp only
    by_cases h : (parseFields f).isEmpty = true
    · rw [if_pos h]; exact hnd
    · rw [if_neg h]; exact keys_objSet acc k1 (parseFields f) hnd

theorem keys_foldl_loadRepoStep (l : List (String × RawRepoVal))
    (acc : List (String × Config)) (hnd : (acc.map Prod.fst).Nodup) :
    ((l.foldl loadRepoStep acc).map Prod.fst).Nodup := by
  induction l generalizing acc with
  | nil => exact hnd
  | cons kv t ih => exact ih _ (keys_loadRepoStep acc kv hnd)

theorem keys_loadRepos (l : List (String × RawRepoVal)) :
    ((loadRepos l).map Prod.fst).Nodup :=
  keys_foldl_loadRepoStep l [] (by simp)

theorem keys_loadGlobalConfig (disk : DiskState) :
    (((loadGlobalConfig disk).repos).map Prod.fst).Nodup := by
  unfold loadGlobalConfig
  match disk with
  | .missing | .unreadable | .notObject => simp
  | .doc d =>
    try dsimp only
    match d.repos with
    | some l => exact keys_loadRepos l
    | none => simp

theorem objGet_foldl_of_not_mem (t : List (String × RawRepoVal))
    (acc : List (String × Config)) (k : String)
    (hk : ∀ p ∈ t, p.1 ≠ k) :
    objGet (t.foldl loadRepoStep acc) k = objGet acc k := by
  induction t generalizing acc with
  | nil => rfl
  | cons kv tl ih =>
    rw [List.foldl_cons]
    have hkv : kv.1 ≠ k := hk kv (by simp)
    have hstep : objGet (loadRepoStep acc kv) k = objGet acc k := by
      unfold loadRepoStep
      match kv with
      | (k1, .notObject) => rfl
      | (k1, .obj f) =>
        try dsimp only
        by_cases h : (parseFields f).isEmpty = true
        · rw [if_pos h]
        · rw [if_neg h]
          exact objGet_objSet_ne acc k1 k _ hkv
    rw [ih _ fun p hp => hk p (by simp [hp]), hstep]

/-- What the `repos` loop of `loadGlobalConfig` holds at key `k`, for a raw
object with unique keys: the parsed entry when it is an object with at least
one string field, nothing otherwise. -/
theorem objGet_loadRepos (l : List (String × RawRepoVal)) (k : String)
    (hnd : (l.map Prod.fst).Nodup) :
    objGet (loadRepos l) k =
      match objGet l k with
      | some (.obj f) =>
        if (parseFields f).isEmpty then none else some (parseFields f)
      | _ => none := by
  unfold loadRepos
  suffices h : ∀ (acc : List (String × Config)),
      objGet (l.foldl loadRepoStep acc) k =
        match objGet l k with
        | some (.obj f) =>
          if (parseFields f).isEmpty then objGet acc k
          else some (parseFields f)
        | some .notObject => objGet acc k
        | none => objGet acc k by
    rw [h []]
    match hfind : objGet l k with
    | some (.obj f) =>
      by_cases he : (parseFields f).isEmpty = true
      · simp [he, objGet]
      · simp [he]
    | some .notObject => simp [objGet]
    | none => simp [objGet]
  induction l with
  | nil => intro acc; rfl
  | cons kv t ih =>
    intro acc
    simp only [List.map_cons, List.nodup_cons] at hnd
    obtain ⟨hknotin, hndt⟩ := hnd
    rw [List.foldl_cons]
    by_cases hk : (kv.1 == k) = true
    · have hkeq : kv.1 = k := by simpa using hk
      have hnot : ∀ p ∈ t, p.1 ≠ k := by
        intro p hp hpk
        exact hknotin (by rw [hkeq, ← hpk]; exact List.mem_map_of_mem _ hp)
      rw [objGet_foldl_of_not_mem t _ k hnot]
      have hhead : objGet (kv :: t) k = some kv.2 := by
        unfold objGet
        rw [List.find?_cons_of_pos (a := kv) _ hk]
        rfl
      rw [hhead]
      unfold loadRepoStep
      match kv, hkeq with
      | (k1, .notObject), hkeq => rfl
      | (k1, .obj f), hkeq =>
        dsimp only at hkeq ⊢
        by_cases he : (parseFields f).isEmpty = true
        · rw [if_pos he]
          simp [he]
        · rw [if_neg he]
          subst hkeq
          simp [he, objGet_objSet_self]
    · have hhead : objGet (kv :: t) k = objGet t k := by
        unfold objGet
        rw [List.find?_cons_of_neg (a := kv) _ hk]
      rw [hhead, ih hndt]
      have hstep : objGet (loadRepoStep acc kv) k = objGet acc k := by
        unfold loadRepoStep
        match kv, hk with
        | (k1, .notObject), hk => rfl
        | (k1, .obj f), hk =>
          dsimp only at hk ⊢
          by_cases he : (parseFields f).isEmpty = true
          · rw [if_pos he]
          · rw [if_neg he]
            exact objGet_objSet_ne acc k1 k _ (by simpa using hk)
      rw [hstep]

/-! ## Helper lemmas: trimming -/

theorem dropWhile_head_not (p : Char → Bool) (l : List Char) (c : Char)
    (hc : (l.dropWhile p).head? = some c) : p c = false := by
  induction l with
  | nil => simp at hc
  | cons a t ih =>
    by_cases h : p a = true
    · rw [List.dropWhile_cons_of_pos h] at hc
      exact ih hc
    · rw [List.dropWhile_cons_of_neg h] at hc
      simp only [List.head?_cons, Option.some.injEq] at hc
      subst hc
      simpa using h

theorem dropWhile_idem (p : Char → Bool) (l : List Char) :
    (l.dropWhile p).dropWhile p = l.dropWhile p := by
  cases h : l.dropWhile p with
  | nil => simp
  | cons a t =>
    have ha : p a = false := dropWhile_head_not p l a (by simp [h])
    rw [List.dropWhile_cons_of_neg (by simp [ha])]

theorem trimRight_prefix (l : List Char) : trimRight l <+: l := by
  unfold trimRight
  have h : l.reverse.dropWhile isJsWhitespace <:+ l.reverse :=
    List.dropWhile_suffix _
  have h2 := List.reverse_prefix.mpr h
  rwa [List.reverse_reverse] at h2

theorem prefix_head?_eq {α : Type} {l₁ l₂ : List α} (h : l₁ <+: l₂)
    (hne : l₁ ≠ []) : l₂.head? = l₁.head? := by
  obtain ⟨t, ht⟩ := h
  cases l₁ with
  | nil => exact absurd rfl hne
  | cons a t1 => rw [← ht]; rfl

theorem trimRight_idem (l : List Char) : trimRight (trimRight l) = trimRight l := by
  unfold trimRight
  rw [List.reverse_reverse, dropWhile_idem]

theorem trimLeft_trimRight_trimLeft (l : List Char) :
    trimLeft (trimRight (trimLeft l)) = trimRight (trimLeft l) := by
  cases h : trimRight (trimLeft l) with
  | nil => simp [trimLeft]
  | cons a t =>
    have hpre := trimRight_prefix (trimLeft l)
    rw [h] at hpre
    have hhead : (trimLeft l).head? = some a := by
      rw [prefix_head?_eq hpre (by simp)]
      rfl
    have ha : isJsWhitespace a = false :=
      dropWhile_head_not isJsWhitespace l a hhead
    unfold trimLeft
    rw [List.dropWhile_cons_of_neg (by simp [ha])]

theorem jsTrim_idem (s : String) : jsTrim (jsTrim s) = jsTrim s := by
  show (⟨trimRight (trimLeft (trimRight (trimLeft s.data)))⟩ : String)
      = ⟨trimRight (trimLeft s.data)⟩
  rw [trimLeft_trimRight_trimLeft, trimRight_idem]

/-- C10: every config-editor save first trims the three fields of
surrounding whitespace and omits any field that is empty after trimming, so
a whitespace-only entry is persisted as an absent field and an all-empty
save persists the empty config (the empty JSON object). -/
theorem configSave_trims_and_omits_empty (hv ov lv : Option String) :
    ((handleConfigSave hv ov lv).postCreateHook =
        if jsTrim (hv.getD "") = "" then none else some (jsTrim (hv.getD ""))) ∧
    ((handleConfigSave hv ov lv).openCommand =
        if jsTrim (ov.getD "") = "" then none else some (jsTrim (ov.getD ""))) ∧
    ((handleConfigSave hv ov lv).launchCommand =
        if jsTrim (lv.getD "") = "" then none else some (jsTrim (lv.getD ""))) ∧
    (∀ v, (handleConfigSave hv ov lv).postCreateHook = some v →
        jsTrim v = v ∧ v ≠ "") ∧
    (∀ v, (handleConfigSave hv ov lv).openCommand = some v →
        jsTrim v = v ∧ v ≠ "") ∧
    (∀ v, (handleConfigSave hv ov lv).launchCommand = some v →
        jsTrim v = v ∧ v ≠ "") ∧
    (configJsonFields (handleConfigSave hv ov lv) = [] ↔
      jsTrim (hv.getD "") = "" ∧ jsTrim (ov.getD "") = "" ∧
        jsTrim (lv.getD "") = "") := by
  have hpost : (handleConfigSave hv ov lv).postCreateHook =
      if jsTrim (hv.getD "") = "" then none else some (jsTrim (hv.getD "")) := by
    unfold handleConfigSave
    try dsimp only
    by_cases h : jsTrim (hv.getD "") = "" <;> simp [h]
  have hopen : (handleConfigSave hv ov lv).openCommand =
      if jsTrim (ov.getD "") = "" then none else some (jsTrim (ov.getD "")) := by
    unfold handleConfigSave
    try dsimp only
    by_cases h : jsTrim (ov.getD "") = "" <;> simp [h]
  have hlaunch : (handleConfigSave hv ov lv).launchCommand =
      if jsTrim (lv.getD "") = "" then none else some (jsTrim (lv.getD "")) := by
    unfold handleConfigSave
    try dsimp only
    by_cases h : jsTrim (lv.getD "") = "" <;> simp [h]
  refine ⟨hpost, hopen, hlaunch, ?_, ?_, ?_, ?_⟩
  · intro v hvv
    rw [hpost] at hvv
    by_cases h : jsTrim (hv.getD "") = ""
    · simp [h] at hvv
    · rw [if_neg h] at hvv
      have hveq := Option.some.inj hvv
      subst hveq
      exact ⟨jsTrim_idem _, h⟩
  · intro v hvv
    rw [hopen] at hvv
    by_cases h : jsTrim (ov.getD "") = ""
    · simp [h] at hvv
    · rw [if_neg h] at hvv
      have hveq := Option.some.inj hvv
      subst hveq
      exact ⟨jsTrim_idem _, h⟩
  · intro v hvv
    rw [hlaunch] at hvv
    by_cases h : jsTrim (lv.getD "") = ""
    · simp [h] at hvv
    · rw [if_neg h] at hvv
      have hveq := Option.some.inj hvv
      subst hveq
      exact ⟨jsTrim_idem _, h⟩
  · unfold configJsonFields
    rw [hpost, hopen, hlaunch]
    by_cases h1 : jsTrim (hv.getD "") = "" <;>
      by_cases h2 : jsTrim (ov.getD "") = "" <;>
        by_cases h3 : jsTrim (lv.getD "") = "" <;>
          simp [h1, h2, h3]

/-- Witness for C10 at concrete editor inputs. -/
theorem configSave_trims_witness :
    (handleConfigSave (some "  npm install  ") (some "   ") none).postCreateHook
      = some "npm install" ∧
    jsTrim "npm install" = "npm install" ∧
    configJsonFields (handleConfigSave (some " ") (some "") none) = [] := by
  have h := configSave_trims_and_omits_empty (some "  npm install  ")
    (some "   ") none
  have h2 := configSave_trims_and_omits_empty (some " ") (some "") none
  have hfield : (handleConfigSave (some "  npm install  ") (some "   ")
      none).postCreateHook = some "npm install" := by
    rw [h.1]
    decide
  exact ⟨hfield, (h.2.2.2.1 "npm install" hfield).1,
    (h2.2.2.2.2.2.2).mpr ⟨by decide, by decide, by decide⟩⟩

/-! ## Helper lemmas: the batch removal loop -/

theorem batch_succ_foldl (env : GitEnv) (a : ConfirmAction)
    (wts : List WorktreeInfo) (acc : BatchResult) :
    (wts.foldl (batchFold env a) acc).successCount =
      acc.successCount + wts.countP (fun wt => (batchItem env a wt).1) := by
  induction wts generalizing acc with
  | nil => simp
  | cons wt t ih =>
    rw [List.foldl_cons, ih]
    unfold batchFold
    try dsimp only
    rw [List.countP_cons]
    cases h : (batchItem env a wt).1 <;> simp [h] <;> omega

theorem batch_fail_foldl (env : GitEnv) (a : ConfirmAction)
    (wts : List WorktreeInfo) (acc : BatchResult) :
    (wts.foldl (batchFold env a) acc).failCount =
      acc.failCount + wts.countP (fun wt => !(batchItem env a wt).1) := by
  induction wts generalizing acc with
  | nil => simp
  | cons wt t ih =>
    rw [List.foldl_cons, ih]
    unfold batchFold
    try dsimp only
    rw [List.countP_cons]
    cases h : (batchItem env a wt).1 <;> simp [h] <;> omega

theorem batch_calls_foldl (env : GitEnv) (a : ConfirmAction)
    (wts : List WorktreeInfo) (acc : BatchResult) :
    (wts.foldl (batchFold env a) acc).calls =
      acc.calls ++ (wts.map (fun wt => (batchItem env a wt).2)).flatten := by
  induction wts generalizing acc with
  | nil => simp
  | cons wt t ih =>
    rw [List.foldl_cons, ih]
    unfold batchFold
    try dsimp only
    rw [List.map_cons, List.flatten_cons, List.append_assoc]

theorem countP_add_countP_not {α : Type} (l : List α) (p : α → Bool) :
    l.countP p + l.countP (fun a => !(p a)) = l.length := by
  induction l with
  | nil => simp
  | cons a t ih =>
    rw [List.countP_cons, List.countP_cons]
    cases h : p a <;> simp [h] <;> omega

theorem unlink_mem_batchItem_calls (env : GitEnv) (a : ConfirmAction)
    (wt : WorktreeInfo) (hne : a ≠ .cancel) :
    GitCall.unlink wt.path (env.dirty wt.path) ∈ (batchItem env a wt).2 := by
  unfold batchItem unlinkWorktreeM deleteWorktreeM
  match a, hne with
  | .unlink, _ => simp
  | .delete, _ =>
    try dsimp only
    match wt.branch with
    | none => simp
    | some b =>
      by_cases h : env.unlinkOk wt.path = true <;>
        by_cases h2 : env.branchDeleteOk b = true <;> simp [h, h2]

/-- C2 counterexample environment: every unlink succeeds, every local
branch delete fails. -/
def allBranchDeletesFailEnv : GitEnv :=
  { unlinkOk := fun _ => true, branchDeleteOk := fun _ => false
    dirty := fun _ => false }

/-- C2 counterexample record: a worktree on a branch. -/
def branchedWt : WorktreeInfo :=
  { path := "/repo-worktrees/feat", head := "abc123", branch := some "feat"
    isDetached := false, isDirty := false, isOnRemote := true
    lastModified := none }

/-- C2, as stated, is false: in a batch delete of one branched worktree
whose unlink succeeds but whose branch delete fails, no item fails its
unlink step (M = 0), yet the aggregate reports failCount = 1 and
successCount = 0 rather than failCount = M and successCount = N − M. -/
theorem batch_counts_counterexample :
    ([branchedWt].filter
        (fun wt => !(allBranchDeletesFailEnv.unlinkOk wt.path))).length = 0 ∧
    (handleBatchConfirmAction allBranchDeletesFailEnv .delete
        [branchedWt]).failCount = 1 ∧
    (handleBatchConfirmAction allBranchDeletesFailEnv .delete
        [branchedWt]).successCount = 0 := by
  refine ⟨by decide, by decide, by decide⟩

/-- C2 (amended): a batch removal processes every selected item in order —
each item's unlink call is issued regardless of other items' failures — and
when additionally no item whose unlink succeeds fails its branch-delete
step, the aggregate over N items of which exactly M fail their unlink step
is successCount = N − M and failCount = M. -/
theorem batch_processes_all_and_counts (env : GitEnv) (action : ConfirmAction)
    (wts : List WorktreeInfo) (hact : action ≠ .cancel)
    (hbranch : ∀ wt ∈ wts, ∀ b, wt.branch = some b →
      env.unlinkOk wt.path = true → action = .delete →
      env.branchDeleteOk b = true) :
    ((handleBatchConfirmAction env action wts).calls =
        (wts.map (fun wt => (batchItem env action wt).2)).flatten) ∧
    (∀ wt ∈ wts, GitCall.unlink wt.path (env.dirty wt.path) ∈
        (handleBatchConfirmAction env action wts).calls) ∧
    (handleBatchConfirmAction env action wts).successCount =
      wts.length -
        (wts.filter (fun wt => !(env.unlinkOk wt.path))).length ∧
    (handleBatchConfirmAction env action wts).failCount =
      (wts.filter (fun wt => !(env.unlinkOk wt.path))).length := by
  have hnc : handleBatchConfirmAction env action wts =
      wts.foldl (batchFold env action)
        { successCount := 0, failCount := 0, calls := [], cancelled := false } := by
    unfold handleBatchConfirmAction
    match action, hact with
    | .unlink, _ => rfl
    | .delete, _ => rfl
  have hitem : ∀ wt ∈ wts, (batchItem env action wt).1 = env.unlinkOk wt.path := by
    intro wt hwt
    unfold batchItem unlinkWorktreeM deleteWorktreeM
    match action, hact with
    | .unlink, _ => rfl
    | .delete, _ =>
      try dsimp only
      match hbr : wt.branch with
      | none => rfl
      | some b =>
        by_cases hu : env.unlinkOk wt.path = true
        · have hb := hbranch wt hwt b hbr hu rfl
          simp [hu, hb]
        · simp only [Bool.not_eq_true] at hu
          simp [hu]
  have hcount : wts.countP (fun wt => (batchItem env action wt).1) =
      wts.countP (fun wt => env.unlinkOk wt.path) := by
    apply List.countP_congr
    intro wt hwt
    rw [hitem wt hwt]
  have hcountf : wts.countP (fun wt => !(batchItem env action wt).1) =
      wts.countP (fun wt => !(env.unlinkOk wt.path)) := by
    apply List.countP_congr
    intro wt hwt
    rw [hitem wt hwt]
  refine ⟨?_, ?_, ?_, ?_⟩
  · rw [hnc, batch_calls_foldl]
    simp
  · intro wt hwt
    rw [hnc, batch_calls_foldl]
    simp only [List.nil_append]
    rw [List.mem_flatten]
    exact ⟨(batchItem env action wt).2,
      List.mem_map_of_mem _ hwt, unlink_mem_batchItem_calls env action wt hact⟩
  · rw [hnc, batch_succ_foldl]
    simp only [Nat.zero_add]
    rw [hcount, ← List.countP_eq_length_filter]
    have := countP_add_countP_not wts (fun wt => env.unlinkOk wt.path)
    omega
  · rw [hnc, batch_fail_foldl]
    simp only [Nat.zero_add]
    rw [hcountf, ← List.countP_eq_length_filter]

/-- Witness for the amended C2 at a concrete batch. -/
theorem batch_processes_all_witness :
    (handleBatchConfirmAction allBranchDeletesFailEnv .unlink
        [branchedWt]).successCount = 1 ∧
    (handleBatchConfirmAction allBranchDeletesFailEnv .unlink
        [branchedWt]).failCount = 0 := by
  have h := batch_processes_all_and_counts allBranchDeletesFailEnv .unlink
    [branchedWt] (by decide)
    (fun wt _ b _ _ hdel => by cases hdel)
  exact ⟨by rw [h.2.2.1]; decide, by rw [h.2.2.2]; decide⟩

/-- C7: in a batch "delete all", an item with no branch (detached HEAD) is
processed with a single unlink — no branch-delete call is issued for it —
and it counts as a success exactly when the unlink succeeds; its unlink
call is part of the batch trace. -/
theorem batch_detached_unlink_only (env : GitEnv) (wts : List WorktreeInfo)
    (wt : WorktreeInfo) (hmem : wt ∈ wts) (hbr : wt.branch = none) :
    batchItem env .delete wt =
      (env.unlinkOk wt.path, [.unlink wt.path (env.dirty wt.path)]) ∧
    GitCall.unlink wt.path (env.dirty wt.path) ∈
      (handleBatchConfirmAction env .delete wts).calls := by
  constructor
  · unfold batchItem unlinkWorktreeM
    rw [hbr]
  · have hnc : handleBatchConfirmAction env .delete wts =
        wts.foldl (batchFold env .delete)
          { successCount := 0, failCount := 0, calls := [], cancelled := false } :=
      rfl
    rw [hnc, batch_calls_foldl]
    simp only [List.nil_append]
    rw [List.mem_flatten]
    exact ⟨(batchItem env .delete wt).2, List.mem_map_of_mem _ hmem,
      unlink_mem_batchItem_calls env .delete wt (by decide)⟩

/-- A detached-HEAD worktree record. -/
def detachedWt : WorktreeInfo :=
  { path := "/repo-worktrees/det", head := "def456", branch := none
    isDetached := true, isDirty := false, isOnRemote := false
    lastModified := none }

/-- Witness for C7 at a concrete detached record. -/
theorem batch_detached_witness :
    batchItem allBranchDeletesFailEnv .delete detachedWt = (true, [.unlink "/repo-worktrees/det" false]) := by
  have h := batch_detached_unlink_only allBranchDeletesFailEnv [detachedWt]
    detachedWt (by decide) (by decide)
  rw [h.1]
  decide

/-! ## The main worktree is never delete-eligible (C3) -/

/-- C3: in a well-formed listing the main worktree (path = repo root)
appears exactly once; the delete-eligible list built by `enterSelectMode`
excludes it; and `toggleWorktreeSelection` refuses to add it to the
selected-for-delete set. -/
theorem mainWorktree_once_never_deletable (rr : String)
    (wts : List WorktreeInfo) (s : UIState) (wt : WorktreeInfo)
    (hwf : WellFormedListing rr wts) :
    (wts.filter (fun w => isMainWorktree rr w.path)).length = 1 ∧
    (∀ w ∈ deletableWorktrees rr wts, isMainWorktree rr w.path = false) ∧
    (s.repoRoot = some rr → isMainWorktree rr wt.path = true →
      (toggleWorktreeSelectionSt wt s).selectedForDelete =
        s.selectedForDelete) := by
  obtain ⟨hnd, hhead⟩ := hwf
  refine ⟨?_, ?_, ?_⟩
  · cases wts with
    | nil => simp at hhead
    | cons w0 t =>
      simp only [List.head?_cons, Option.map_some] at hhead
      have hw0path : w0.path = rr := by
        simpa using hhead
      have hw0 : isMainWorktree rr w0.path = true := by
        simp [isMainWorktree, hw0path]
      rw [List.filter_cons_of_pos (a := w0) hw0]
      simp only [List.length_cons, Nat.add_left_eq_self, Nat.succ_eq_add_one]
      have ht : ∀ w ∈ t, ¬(isMainWorktree rr w.path = true) := by
        intro w hw hmain
        have hwpath : rr = w.path := by simpa [isMainWorktree] using hmain
        simp only [List.map_cons, List.nodup_cons] at hnd
        exact hnd.1 (hw0path ▸ hwpath ▸ List.mem_map_of_mem _ hw)
      simp [List.filter_eq_nil_iff.mpr ht]
  · intro w hw
    unfold deletableWorktrees at hw
    have h2 := (List.mem_filter.mp hw).2
    simpa using h2
  · intro hroot hmain
    unfold toggleWorktreeSelectionSt
    rw [hroot]
    simp [Option.any_some, hmain]

/-- The Browse-mode state of a session opened on a repo at `/r` that already
has a saved config. -/
def browseSt : UIState := initState (some "/r") none true

/-- The main worktree record of the repo at `/r`. -/
def mainWt : WorktreeInfo :=
  { path := "/r", head := "aaa111", branch := some "main"
    isDetached := false, isDirty := false, isOnRemote := true
    lastModified := none }

/-- Witness for C3 at a concrete listing and session state. -/
theorem mainWorktree_once_witness :
    (([mainWt, branchedWt].filter
        (fun w => isMainWorktree "/r" w.path)).length = 1) ∧
    (toggleWorktreeSelectionSt mainWt browseSt).selectedForDelete =
      browseSt.selectedForDelete := by
  have h := mainWorktree_once_never_deletable "/r" [mainWt, branchedWt]
    browseSt mainWt ⟨by decide, by decide⟩
  exact ⟨h.1, h.2.2 rfl (by decide)⟩

/-! ## Process exit codes (C9) -/

/-- C9: a normal quit (`q` in Browse, routed to `cleanup(true)`) exits with
code 0; when a tool is launched, the session's exit mirrors the child's exit
code, a `null` child code being reported as 0; and a failure to initialize
the interactive surface exits with the nonzero `runApp` catch code. -/
theorem session_exit_codes (s : UIState) (env : EnvResp) (n : Int)
    (hconf : s.isConfirming = false) (hcr : s.isCreatingWorktree = false)
    (hsel : s.isSelectingForDelete = false) (hrun : s.isRunningHook = false)
    (hedit : s.isEditingConfig = false) :
    (handleKeypress ⟨false, "q"⟩ env s).2 =
      [.destroyRenderer, .exitProcess 0] ∧
    (cleanup true s).2 = [.destroyRenderer, .exitProcess 0] ∧
    launchChildExit (some n) = n ∧
    launchChildExit none = 0 ∧
    launchExitEffect none = .exitProcess 0 ∧
    runAppCatchExitCode ≠ 0 := by
  refine ⟨?_, rfl, rfl, rfl, rfl, by decide⟩
  unfold handleKeypress
  simp [hconf, hcr, hsel, hrun, hedit, cleanup]

/-- Witness for C9 at the initial Browse state. -/
theorem session_exit_codes_witness :
    (handleKeypress ⟨false, "q"⟩
        ⟨none, [], none, none, none, false, none⟩ browseSt).2 =
      [.destroyRenderer, .exitProcess 0] ∧
    launchChildExit (some 5) = 5 := by
  have h := session_exit_codes browseSt
    ⟨none, [], none, none, none, false, none⟩ 5
    (by decide) (by decide) (by decide) (by decide) (by decide)
  exact ⟨h.1, h.2.2.1⟩

/-! ## The config loader is total and fully populated (C5) -/

/-- C5: on every disk state — missing file, unreadable or non-JSON content,
non-object document — and every repo-key outcome, `loadRepoConfig` returns a
config whose three fields are all populated, each from the repo override
when present and the default otherwise, along with the key it used; the
loader is a total function of the disk state (it never throws). -/
theorem loadRepoConfig_total_and_populated (repoKey : Option String)
    (disk : DiskState) :
    ((loadRepoConfig repoKey disk).config.postCreateHook =
      some ((match repoKey with
             | some k => ((objGet (loadGlobalConfig disk).repos k).getD
                 {}).postCreateHook
             | none => none).getD
        (loadGlobalConfig disk).default.postCreateHook)) ∧
    ((loadRepoConfig repoKey disk).config.openCommand =
      some ((match repoKey with
             | some k => ((objGet (loadGlobalConfig disk).repos k).getD
                 {}).openCommand
             | none => none).getD
        (loadGlobalConfig disk).default.openCommand)) ∧
    ((loadRepoConfig repoKey disk).config.launchCommand =
      some ((match repoKey with
             | some k => ((objGet (loadGlobalConfig disk).repos k).getD
                 {}).launchCommand
             | none => none).getD
        (loadGlobalConfig disk).default.launchCommand)) ∧
    (loadRepoConfig repoKey disk).repoKey = repoKey := by
  unfold loadRepoConfig
  match repoKey with
  | none => simp
  | some k =>
    try dsimp only
    match hg : objGet (loadGlobalConfig disk).repos k with
    | none => simp
    | some rc =>
      obtain ⟨f1, f2, f3⟩ := rc
      refine ⟨?_, ?_, ?_, rfl⟩ <;>
        cases f1 <;> cases f2 <;> cases f3 <;> simp

/-! ## Save/load round trip (C4) -/

theorem parseDefault_serDefault (d : DefaultConfig) :
    parseDefault (.obj (serDefault d)) = d := by
  obtain ⟨a, b, c⟩ := d
  rfl

theorem parse_diffField (c : Option String) (d : String) :
    (match diffField c d with | JField.str v => some v | _ => none) =
      if c = some d then none else c := by
  unfold diffField
  match c with
  | none => simp
  | some s =>
    by_cases h : s = d <;> simp [h]

theorem merge_field_diff (c : Option String) (d : String) :
    (if (if c = some d then none else c).isSome
      then (if c = some d then none else c) else some d) = some (c.getD d) := by
  match c with
  | none => simp
  | some s =>
    by_cases h : s = d <;> simp [h]

theorem getD_of_diff_none (c : Option String) (d : String)
    (h : (if c = some d then none else c) = none) : c.getD d = d := by
  match c with
  | none => rfl
  | some s =>
    by_cases hs : s = d
    · simp [hs]
    · simp [hs] at h

theorem fieldDiffers_false_iff (c : Option String) (d : String) :
    fieldDiffers c d = false ↔ c = some d := by
  unfold fieldDiffers
  cases c <;> simp

theorem keys_serRepos (g : GlobalConfig) :
    ((g.repos.map (fun p => (p.1, RawRepoVal.obj (serConfig p.2)))).map
      Prod.fst).Nodup ↔ (g.repos.map Prod.fst).Nodup := by
  rw [List.map_map]
  rfl

theorem getD_diff (c : Option String) (d : String) :
    (if c = some d then none else c).getD d = c.getD d := by
  match c with
  | none => simp
  | some s =>
    by_cases h : s = d <;> simp [h]

theorem loadGlobalConfig_saved (rd : DefaultConfig)
    (raws : List (String × RawRepoVal)) :
    loadGlobalConfig (.doc ⟨.obj (serDefault rd), some raws⟩) =
      { default := rd, repos := loadRepos raws } := by
  unfold loadGlobalConfig
  try dsimp only
  rw [parseDefault_serDefault]

theorem loadRepoConfig_fields (k : String) (disk : DiskState) :
    (loadRepoConfig (some k) disk).config =
      { postCreateHook := some ((((objGet (loadGlobalConfig disk).repos
            k).getD {}).postCreateHook).getD
          (loadGlobalConfig disk).default.postCreateHook)
        openCommand := some ((((objGet (loadGlobalConfig disk).repos
            k).getD {}).openCommand).getD
          (loadGlobalConfig disk).default.openCommand)
        launchCommand := some ((((objGet (loadGlobalConfig disk).repos
            k).getD {}).launchCommand).getD
          (loadGlobalConfig disk).default.launchCommand) } := by
  unfold loadRepoConfig
  try dsimp only
  match hg : objGet (loadGlobalConfig disk).repos k with
  | none => simp
  | some rc =>
    dsimp only [Option.getD_some]
    obtain ⟨f1, f2, f3⟩ := rc
    cases f1 <;> cases f2 <;> cases f3 <;> simp

/-- C4: for every repo with a resolvable key and every config value, a
`saveRepoConfig` followed by `loadRepoConfig` yields exactly the saved
fields merged over the default config, and saving a config in which every
field equals the default removes the repo entry from the persisted document
instead of storing it. -/
theorem saveLoad_roundtrip (disk : DiskState) (k : String) (c : Config) :
    (saveRepoConfig (some k) disk c).1 = true ∧
    (loadRepoConfig (some k) (saveRepoConfig (some k) disk c).2).config =
      specSavedMergedOverDefault c (loadGlobalConfig disk).default ∧
    (c = configOfDefault (loadGlobalConfig disk).default →
      ∃ raws, persistedRepos (saveRepoConfig (some k) disk c).2 = some raws ∧
        objGet raws k = none) := by
  have hgkeys := keys_loadGlobalConfig disk
  have hserkeys : (((loadGlobalConfig disk).repos.map
      (fun p => (p.1, RawRepoVal.obj (serConfig p.2)))).map Prod.fst).Nodup :=
    (keys_serRepos (loadGlobalConfig disk)).mpr hgkeys
  unfold saveRepoConfig
  try dsimp only
  by_cases hdiff :
      (fieldDiffers c.postCreateHook (loadGlobalConfig disk).default.postCreateHook ||
       fieldDiffers c.openCommand (loadGlobalConfig disk).default.openCommand ||
       fieldDiffers c.launchCommand (loadGlobalConfig disk).default.launchCommand) = true
  · rw [if_pos hdiff]
    refine ⟨rfl, ?_, ?_⟩
    · rw [loadRepoConfig_fields, loadGlobalConfig_saved]
      try dsimp only
      rw [objGet_loadRepos _ _ (keys_objSet _ k _ hserkeys)]
      rw [objGet_objSet_self]
      try dsimp only
      by_cases hemp : (parseFields
          ⟨diffField c.postCreateHook (loadGlobalConfig disk).default.postCreateHook,
           diffField c.openCommand (loadGlobalConfig disk).default.openCommand,
           diffField c.launchCommand (loadGlobalConfig disk).default.launchCommand⟩).isEmpty = true
      · rw [if_pos hemp]
        unfold Config.isEmpty parseFields at hemp
        dsimp only at hemp
        rw [parse_diffField, parse_diffField, parse_diffField] at hemp
        simp only [Bool.and_eq_true, Option.isNone_iff_eq_none] at hemp
        unfold specSavedMergedOverDefault
        dsimp only [Option.getD_none]
        rw [getD_of_diff_none _ _ hemp.1.1, getD_of_diff_none _ _ hemp.1.2,
          getD_of_diff_none _ _ hemp.2]
      · rw [if_neg hemp]
        unfold parseFields specSavedMergedOverDefault
        dsimp only [Option.getD_some]
        rw [parse_diffField, parse_diffField, parse_diffField]
        rw [getD_diff, getD_diff, getD_diff]
    · intro hc
      exfalso
      subst hc
      unfold configOfDefault at hdiff
      simp [fieldDiffers] at hdiff
  · rw [if_neg hdiff]
    simp only [Bool.or_eq_true, not_or, Bool.not_eq_true] at hdiff
    obtain ⟨⟨h1, h2⟩, h3⟩ := hdiff
    rw [fieldDiffers_false_iff] at h1 h2 h3
    refine ⟨rfl, ?_, ?_⟩
    · rw [loadRepoConfig_fields, loadGlobalConfig_saved]
      try dsimp only
      rw [objGet_loadRepos _ _ (keys_objDel _ k hserkeys)]
      rw [objGet_objDel_self]
      unfold specSavedMergedOverDefault
      rw [h1, h2, h3]
      rfl
    · intro _
      exact ⟨_, rfl, objGet_objDel_self _ k⟩

/-- Witness for C4 at a concrete document, key and config. -/
theorem saveLoad_roundtrip_witness :
    (saveRepoConfig (some "github.com/x/y") DiskState.missing
        { postCreateHook := some "npm install" }).1 = true ∧
    (loadRepoConfig (some "github.com/x/y")
        (saveRepoConfig (some "github.com/x/y") DiskState.missing
          { postCreateHook := some "npm install" }).2).config =
      { postCreateHook := some "npm install", openCommand := some ""
        launchCommand := some "opencode" } := by
  have h := saveLoad_roundtrip DiskState.missing "github.com/x/y"
    { postCreateHook := some "npm install" }
  refine ⟨h.1, ?_⟩
  rw [h.2.1]
  decide

/-! ## Mode flags are mutually exclusive in every reachable state (C8) -/

/-- Boolean form of pairwise mode exclusion. -/
def modeExclusive (s : UIState) : Bool :=
  !(s.isConfirming && (s.isCreatingWorktree || s.isSelectingForDelete ||
      s.isRunningHook || s.isEditingConfig)) &&
  !(s.isCreatingWorktree && (s.isSelectingForDelete || s.isRunningHook ||
      s.isEditingConfig)) &&
  !(s.isSelectingForDelete && (s.isRunningHook || s.isEditingConfig)) &&
  !(s.isRunningHook && s.isEditingConfig)

/-- Boolean form of the inductive invariant `Inv`. -/
def invB (s : UIState) : Bool :=
  modeExclusive s &&
  (!s.selectFocused || (!s.isConfirming && !s.isCreatingWorktree &&
    !s.isEditingConfig && !s.isRunningHook))

theorem inv_iff_invB (s : UIState) : Inv s ↔ invB s = true := by
  rcases s with ⟨c1, c2, c3, c4, hf, c5, fts, foc, vis, sel, pend, out,
    tp, hab, hpl, rt, lc, tm⟩
  unfold Inv invB modeExclusive modeCount
  try dsimp only
  cases c1 <;> cases c2 <;> cases c3 <;> cases c4 <;> cases c5 <;>
    cases foc <;> decide

theorem invB_flags {s : UIState} (h : invB s = true) :
    (s.isConfirming = true → s.isCreatingWorktree = false ∧
      s.isSelectingForDelete = false ∧ s.isRunningHook = false ∧
      s.isEditingConfig = false) ∧
    (s.isCreatingWorktree = true → s.isConfirming = false ∧
      s.isSelectingForDelete = false ∧ s.isRunningHook = false ∧
      s.isEditingConfig = false) ∧
    (s.isSelectingForDelete = true → s.isConfirming = false ∧
      s.isCreatingWorktree = false ∧ s.isRunningHook = false ∧
      s.isEditingConfig = false) ∧
    (s.isRunningHook = true → s.isConfirming = false ∧
      s.isCreatingWorktree = false ∧ s.isSelectingForDelete = false ∧
      s.isEditingConfig = false) ∧
    (s.isEditingConfig = true → s.isConfirming = false ∧
      s.isCreatingWorktree = false ∧ s.isSelectingForDelete = false ∧
      s.isRunningHook = false) ∧
    (s.selectFocused = true → s.isConfirming = false ∧
      s.isCreatingWorktree = false ∧ s.isEditingConfig = false ∧
      s.isRunningHook = false) := by
  unfold invB modeExclusive at h
  revert h
  cases h1 : s.isConfirming <;> cases h2 : s.isCreatingWorktree <;>
    cases h3 : s.isSelectingForDelete <;> cases h4 : s.isRunningHook <;>
      cases h5 : s.isEditingConfig <;> cases h6 : s.selectFocused <;> decide

theorem invB_modeExclusive {s : UIState} (h : invB s = true) :
    modeExclusive s = true :=
  ((Bool.and_eq_true _ _).mp h).1

theorem invB_handleHookFailureChoice (choice : String)
    (newRoot : Option String) (s : UIState) (h : invB s = true)
    (hrun : s.isRunningHook = true) :
    invB (handleHookFailureChoice choice newRoot s).1 = true := by
  obtain ⟨hc1, hc2, hc3, hc5⟩ := (invB_flags h).2.2.2.1 hrun
  unfold handleHookFailureChoice hideHookOutput loadWorktreesSt cleanup
  try dsimp only
  by_cases hch : (choice == "open" && s.pendingWorktreePath.isSome) = true
  · rw [if_pos hch]
    unfold invB modeExclusive
    try dsimp only
    rw [hc1, hc2, hc3, hc5]
    rfl
  · rw [if_neg hch]
    unfold invB modeExclusive
    try dsimp only
    rw [hc1, hc2, hc3, hc5]
    rfl

theorem invB_hideConfirmDialog (newRoot : Option String) (s : UIState)
    (h : invB s = true) (hmode : s.isConfirming = true) :
    invB (hideConfirmDialog newRoot s).1 = true := by
  obtain ⟨hc2, hc3, hc4, hc5⟩ := (invB_flags h).1 hmode
  unfold hideConfirmDialog loadWorktreesSt
  try dsimp only
  unfold invB modeExclusive
  try dsimp only
  rw [hc2, hc3, hc4, hc5]
  rfl

theorem invB_hideCreateWorktreeInput (selectPath newRoot : Option String)
    (s : UIState) (h : invB s = true) (hmode : s.isCreatingWorktree = true) :
    invB (hideCreateWorktreeInput selectPath newRoot s).1 = true := by
  obtain ⟨hc1, hc3, hc4, hc5⟩ := (invB_flags h).2.1 hmode
  unfold hideCreateWorktreeInput loadWorktreesSt
  try dsimp only
  unfold invB modeExclusive
  try dsimp only
  rw [hc1, hc3, hc4, hc5]
  rfl

theorem invB_hideConfigEditor (s : UIState) (h : invB s = true)
    (hmode : s.isEditingConfig = true) :
    invB (hideConfigEditor s) = true := by
  obtain ⟨hc1, hc2, hc3, hc4⟩ := (invB_flags h).2.2.2.2.1 hmode
  unfold hideConfigEditor
  unfold invB modeExclusive
  try dsimp only
  rw [hc1, hc2, hc3, hc4]
  rfl

theorem invB_handleConfigSaveSt (hv ov lv : Option String) (saveOk : Bool)
    (s : UIState) (h : invB s = true) (hmode : s.isEditingConfig = true) :
    invB (handleConfigSaveSt hv ov lv saveOk s) = true := by
  obtain ⟨hc1, hc2, hc3, hc4⟩ := (invB_flags h).2.2.2.2.1 hmode
  unfold handleConfigSaveSt hideConfigEditor
  try dsimp only
  match s.repoRoot with
  | none =>
    unfold invB modeExclusive
    try dsimp only
    rw [hc1, hc2, hc3, hc4]
    rfl
  | some _ =>
    try dsimp only
    by_cases hok : saveOk = true
    · rw [if_pos hok]
      unfold invB modeExclusive
      try dsimp only
      rw [hc1, hc2, hc3, hc4]
      rfl
    · rw [if_neg hok]
      unfold invB modeExclusive
      try dsimp only
      rw [hc1, hc2, hc3, hc4]
      rfl

theorem invB_cleanup (b : Bool) (s : UIState) (h : invB s = true) :
    invB (cleanup b s).1 = true := by
  have hme := invB_modeExclusive h
  unfold modeExclusive at hme
  unfold cleanup
  try dsimp only
  unfold invB modeExclusive
  try dsimp only
  rw [hme]
  rfl

theorem invB_exitSelectMode (newRoot : Option String) (s : UIState)
    (h : invB s = true) (hmode : s.isSelectingForDelete = true) :
    invB (exitSelectMode newRoot s).1 = true := by
  obtain ⟨hc1, hc2, hc4, hc5⟩ := (invB_flags h).2.2.1 hmode
  unfold exitSelectMode loadWorktreesSt
  try dsimp only
  unfold invB modeExclusive
  try dsimp only
  rw [hc1, hc2, hc4, hc5]
  simp

theorem invB_toggleOpt (opt : Option SelectItem) (s : UIState) :
    invB (toggleWorktreeSelectionOpt opt s) = invB s := by
  unfold toggleWorktreeSelectionOpt toggleWorktreeSelectionSt
  repeat' split
  all_goals rfl

theorem invB_confirmBatchDelete (s : UIState) (h : invB s = true)
    (hmode : s.isSelectingForDelete = true) :
    invB (confirmBatchDelete s) = true := by
  obtain ⟨hc1, hc2, hc4, hc5⟩ := (invB_flags h).2.2.1 hmode
  unfold confirmBatchDelete showBatchDeleteConfirmation
  try dsimp only
  by_cases hsel : s.selectedForDelete = ∅
  · rw [if_pos hsel]
    exact h
  · rw [if_neg hsel]
    match s.repoRoot with
    | none => exact h
    | some _ =>
      unfold invB modeExclusive
      try dsimp only
      rw [hc2, hc4, hc5]
      rfl

theorem invB_enterSelectMode (wts : List WorktreeInfo) (s : UIState)
    (h : invB s = true) (hc1 : s.isConfirming = false)
    (hc2 : s.isCreatingWorktree = false) (hc4 : s.isRunningHook = false)
    (hc5 : s.isEditingConfig = false) :
    invB (enterSelectMode wts s) = true := by
  unfold enterSelectMode
  try dsimp only
  match s.repoRoot with
  | none => exact h
  | some rr =>
    try dsimp only
    by_cases hemp : (deletableWorktrees rr wts).isEmpty = true
    · rw [if_pos hemp]
      exact h
    · rw [if_neg hemp]
      unfold invB modeExclusive
      try dsimp only
      rw [hc1, hc2, hc4, hc5]
      simp

theorem invB_showCreateWorktreeInput (s : UIState)
    (hc1 : s.isConfirming = false) (hc3 : s.isSelectingForDelete = false)
    (hc4 : s.isRunningHook = false) (hc5 : s.isEditingConfig = false) :
    invB (showCreateWorktreeInput s) = true := by
  unfold showCreateWorktreeInput invB modeExclusive
  try dsimp only
  rw [hc1, hc3, hc4, hc5]
  rfl

theorem invB_showConfigEditor (s : UIState) (h : invB s = true)
    (hc1 : s.isConfirming = false) (hc2 : s.isCreatingWorktree = false)
    (hc3 : s.isSelectingForDelete = false) (hc4 : s.isRunningHook = false) :
    invB (showConfigEditor s) = true := by
  unfold showConfigEditor
  match s.repoRoot with
  | none => exact h
  | some _ =>
    unfold invB modeExclusive
    try dsimp only
    rw [hc1, hc2, hc3, hc4]
    rfl

theorem invB_handleKeypress (key : KeyEvent) (env : EnvResp) (s : UIState)
    (h : invB s = true) : invB (handleKeypress key env s).1 = true := by
  unfold handleKeypress
  by_cases h1 : (key.ctrl && key.name == "c") = true
  · rw [if_pos h1]
    by_cases h2 : (s.isRunningHook && s.hookAbortAvailable) = true
    · rw [if_pos h2]
      obtain ⟨hc1, hc2, hc3, hc5⟩ :=
        (invB_flags h).2.2.2.1 ((Bool.and_eq_true _ _).mp h2).1
      unfold hideHookOutput loadWorktreesSt
      try dsimp only
      unfold invB modeExclusive
      try dsimp only
      rw [hc1, hc2, hc3, hc5]
      rfl
    · rw [if_neg h2]
      exact invB_cleanup true s h
  · rw [if_neg h1]
    by_cases h2 : (s.isRunningHook && !s.hookFailed) = true
    · rw [if_pos h2]
      exact h
    · rw [if_neg h2]
      by_cases h3 : (s.isRunningHook && s.hookFailed) = true
      · rw [if_pos h3]
        by_cases h4 : (key.name == "escape") = true
        · rw [if_pos h4]
          exact invB_handleHookFailureChoice "cancel" env.newRoot s h
            ((Bool.and_eq_true _ _).mp h3).1
        · rw [if_neg h4]
          exact h
      · rw [if_neg h3]
        by_cases h5 : s.isConfirming = true
        · rw [if_pos h5]
          by_cases h6 : (key.name == "escape") = true
          · rw [if_pos h6]
            exact invB_hideConfirmDialog env.newRoot s h h5
          · rw [if_neg h6]
            exact h
        · rw [if_neg h5]
          by_cases h6 : s.isCreatingWorktree = true
          · rw [if_pos h6]
            by_cases h7 : (key.name == "escape") = true
            · rw [if_pos h7]
              exact invB_hideCreateWorktreeInput none env.newRoot s h h6
            · rw [if_neg h7]
              exact h
          · rw [if_neg h6]
            by_cases h7 : s.isEditingConfig = true
            · rw [if_pos h7]
              by_cases h8 : (key.name == "escape") = true
              · rw [if_pos h8]
                exact invB_hideConfigEditor s h h7
              · rw [if_neg h8]
                by_cases h9 : (key.name == "return") = true
                · rw [if_pos h9]
                  exact invB_handleConfigSaveSt env.hookVal env.openVal
                    env.launchVal env.saveOk s h h7
                · rw [if_neg h9]
                  exact h
            · rw [if_neg h7]
              by_cases h8 : s.isSelectingForDelete = true
              · rw [if_pos h8]
                by_cases h9 : (key.name == "escape" || key.name == "q") = true
                · rw [if_pos h9]
                  exact invB_exitSelectMode env.newRoot s h h8
                · rw [if_neg h9]
                  by_cases h10 : (key.name == "return") = true
                  · rw [if_pos h10]
                    rw [invB_toggleOpt]
                    exact h
                  · rw [if_neg h10]
                    by_cases h11 : (key.name == "d") = true
                    · rw [if_pos h11]
                      exact invB_confirmBatchDelete s h h8
                    · rw [if_neg h11]
                      exact h
              · rw [if_neg h8]
                rw [Bool.not_eq_true] at h5 h6 h7 h8
                have hrun : s.isRunningHook = false := by
                  rw [Bool.not_eq_true] at h2 h3
                  revert h2 h3
                  cases s.isRunningHook <;> cases s.hookFailed <;> decide
                by_cases h9 : (key.name == "q" || key.name == "escape") = true
                · rw [if_pos h9]
                  exact invB_cleanup true s h
                · rw [if_neg h9]
                  by_cases h10 : (key.name == "r") = true
                  · rw [if_pos h10]
                    exact h
                  · rw [if_neg h10]
                    by_cases h11 : (key.name == "n") = true
                    · rw [if_pos h11]
                      exact invB_showCreateWorktreeInput s h5 h8 hrun h7
                    · rw [if_neg h11]
                      by_cases h12 : (key.name == "d") = true
                      · rw [if_pos h12]
                        exact invB_enterSelectMode env.wts s h h5 h6 hrun h7
                      · rw [if_neg h12]
                        by_cases h13 : (key.name == "o") = true
                        · rw [if_pos h13]
                          exact h
                        · rw [if_neg h13]
                          by_cases h14 : (key.name == "c") = true
                          · rw [if_pos h14]
                            exact invB_showConfigEditor s h h5 h6 h8 hrun
                          · rw [if_neg h14]
                            exact h

theorem invB_onMainSelectItem (item : SelectItem) (avail : Bool)
    (s : UIState) (h : invB s = true) (hfoc : s.selectFocused = true) :
    invB (onMainSelectItem item avail s).1 = true := by
  obtain ⟨hc1, hc2, hc5, hc4⟩ := (invB_flags h).2.2.2.2.2 hfoc
  unfold onMainSelectItem handleSelection
  try dsimp only
  by_cases hg : (s.isConfirming || s.isCreatingWorktree ||
      s.isSelectingForDelete) = true
  · rw [if_pos hg]
    exact h
  · rw [if_neg hg]
    have hc3 : s.isSelectingForDelete = false := by
      rw [Bool.not_eq_true] at hg
      revert hg
      cases s.isConfirming <;> cases s.isCreatingWorktree <;>
        cases s.isSelectingForDelete <;> decide
    match item with
    | .createEntry =>
      exact invB_showCreateWorktreeInput s hc1 hc3 hc4 hc5
    | .worktree wt =>
      try dsimp only
      by_cases ha : (!avail) = true
      · rw [if_pos ha]
        exact h
      · rw [if_neg ha]
        exact invB_cleanup false s h

theorem invB_runHook (path cmd : String) (s : UIState) (h : invB s = true)
    (hmode : s.isCreatingWorktree = true) :
    invB (runHook path cmd s).1 = true := by
  obtain ⟨hc1, hc3, hc4, hc5⟩ := (invB_flags h).2.1 hmode
  unfold runHook invB modeExclusive
  try dsimp only
  rw [hc1, hc3, hc5]
  have hfoc : s.selectFocused = false := by
    by_cases hf : s.selectFocused = true
    · exact absurd hmode (by simp [((invB_flags h).2.2.2.2.2 hf).2.1])
    · rwa [Bool.not_eq_true] at hf
  rw [hfoc]
  rfl

theorem invB_handleCreateWorktree (bn : String) (res : CreateResult)
    (cfg : Config) (newRoot : Option String) (s : UIState)
    (h : invB s = true) (hmode : s.isCreatingWorktree = true) :
    invB (handleCreateWorktree bn res cfg newRoot s).1 = true := by
  unfold handleCreateWorktree
  by_cases h1 : (jsTrim bn == "") = true
  · rw [if_pos h1]
    exact h
  · rw [if_neg h1]
    match s.repoRoot with
    | none => exact h
    | some _ =>
      try dsimp only
      match res with
      | .err m => exact h
      | .ok path =>
        try dsimp only
        by_cases h2 : truthyHook cfg = true
        · rw [if_pos h2]
          exact invB_runHook path (cfg.postCreateHook.getD "")
            { s with pendingWorktreePath := some path } h hmode
        · rw [if_neg h2]
          have hhide := invB_hideCreateWorktreeInput none newRoot s h hmode
          exact invB_cleanup false _ hhide

theorem invB_handleBatchConfirmActionSt (env : GitEnv)
    (action : ConfirmAction) (wts : List WorktreeInfo)
    (newRoot : Option String) (s : UIState) (h : invB s = true)
    (hmode : s.isConfirming = true) :
    invB (handleBatchConfirmActionSt env action wts newRoot s).1 = true := by
  obtain ⟨hc2, hc3, hc4, hc5⟩ := (invB_flags h).1 hmode
  unfold handleBatchConfirmActionSt hideConfirmDialog loadWorktreesSt
  try dsimp only
  by_cases h1 : (action == ConfirmAction.cancel || s.repoRoot.isNone) = true
  · rw [if_pos h1]
    unfold invB modeExclusive
    try dsimp only
    rw [hc2, hc3, hc4, hc5]
    rfl
  · rw [if_neg h1]
    unfold invB modeExclusive
    try dsimp only
    rw [hc2, hc3, hc4, hc5]
    rfl

theorem invB_onHookComplete (r : HookResult) (s : UIState)
    (h : invB s = true) : invB (onHookComplete r s).1 = true := by
  unfold onHookComplete onHookSuccess onHookFailure
  try dsimp only
  by_cases hr : r.success = true
  · rw [if_pos hr]
    exact h
  · rw [if_neg hr]
    exact h

theorem invB_onHookSuccessTimeout (s : UIState) (h : invB s = true) :
    invB (onHookSuccessTimeout s).1 = true := by
  unfold onHookSuccessTimeout hideHookOutput cleanup
  try dsimp only
  unfold invB modeExclusive at h ⊢
  cases hc1 : s.isConfirming <;> cases hc2 : s.isCreatingWorktree <;>
    cases hc3 : s.isSelectingForDelete <;> cases hc5 : s.isEditingConfig <;>
      cases hfoc : s.selectFocused <;> simp_all

theorem invB_step {s t : UIState} (h : invB s = true) (hst : Step s t) :
    invB t = true := by
  cases hst with
  | keypress key env hterm => exact invB_handleKeypress key env s h
  | mainSelect item avail hterm hfoc =>
    exact invB_onMainSelectItem item avail s h hfoc
  | branchInput bn res cfg newRoot hterm hmode =>
    exact invB_handleCreateWorktree bn res cfg newRoot s h hmode
  | confirmSelect env action wts newRoot hterm hmode =>
    exact invB_handleBatchConfirmActionSt env action wts newRoot s h hmode
  | hookFailureSelect choice newRoot hterm hrun hfail =>
    exact invB_handleHookFailureChoice choice newRoot s h hrun
  | hookChunk data hterm hlive => exact h
  | hookComplete ec hterm hlive =>
    exact invB_onHookComplete (hookResultOfExit ec) s h
  | hookTimeout hterm hpend => exact invB_onHookSuccessTimeout s h

theorem invB_initState (root : Option String) (launchCmd : Option String)
    (cfgExists : Bool) : invB (initState root launchCmd cfgExists) = true := by
  unfold initState showConfigEditor
  try dsimp only
  cases root <;> cases cfgExists <;> rfl

theorem invB_reachable {s : UIState} (h : Reachable s) : invB s = true := by
  induction h with
  | init root launchCmd cfgExists => exact invB_initState root launchCmd cfgExists
  | step hs hst ih => exact invB_step ih hst

/-- C8: in every reachable session state at most one of the five mode flags
(confirming, creating-worktree, selecting-for-delete, running-hook,
editing-config) is set — every transition that activates a mode deactivates
or is guarded against the others. -/
theorem session_modes_mutually_exclusive (s : UIState) (h : Reachable s) :
    modeCount s ≤ 1 :=
  (((inv_iff_invB s).mpr (invB_reachable h))).1

/-- Witness for C8 at a constructor state. -/
theorem session_modes_witness : modeCount (initState none none true) ≤ 1 :=
  session_modes_mutually_exclusive (initState none none true)
    (Reachable.init none none true)

/-! ## Create flow and hook failure, evaluated on the failing inputs (C1, C6)

`hideHookOutput` nulls `pendingWorktreePath` before the callers read it
back: the hook-failure "cancel" branch passes the already-nulled value to
`loadWorktrees` (so nothing is preselected), and the hook-success timeout
finds the guard `if (this.pendingWorktreePath)` false (so no tool is ever
launched). The theorems below evaluate the embedded handlers at the
concrete scenario from the spec. -/

/-- The create-input mode entered from the Browse state on `/r`. -/
def createModeSt : UIState := showCreateWorktreeInput browseSt

/-- The session right after `createWorktree` succeeded at
`/r-worktrees/feat` with the post-create hook `exit 1` configured. -/
def hookRunSt : UIState :=
  (handleCreateWorktree "feat" (.ok "/r-worktrees/feat")
    { postCreateHook := some "exit 1" } (some "/r") createModeSt).1

/-- The session after the hook process exited with code 1. -/
def hookFailedSt : UIState :=
  (onHookComplete (hookResultOfExit (some 1)) hookRunSt).1

/-- C1, evaluated: after a hook failure (exit code 1) the session is in the
hook-failed sub-state with the new worktree path pending; choosing "cancel"
returns to the Browse list and launches no tool, but the refresh is issued
with no path to preselect — `hideHookOutput` nulled `pendingWorktreePath`
before `loadWorktrees(this.pendingWorktreePath || undefined)` read it, so
the newly created worktree is not preselected. -/
theorem hookFailure_cancel_eval :
    hookFailedSt.isRunningHook = true ∧
    hookFailedSt.hookFailed = true ∧
    hookFailedSt.pendingWorktreePath = some "/r-worktrees/feat" ∧
    (handleHookFailureChoice "cancel" (some "/r") hookFailedSt).2 =
      [Effect.listRefresh none] ∧
    (handleHookFailureChoice "cancel" (some "/r")
        hookFailedSt).1.isRunningHook = false ∧
    (handleHookFailureChoice "cancel" (some "/r")
        hookFailedSt).1.selectVisible = true ∧
    (handleHookFailureChoice "cancel" (some "/r")
        hookFailedSt).1.selectFocused = true ∧
    (∀ c d, Effect.launch c d ∉
      (handleHookFailureChoice "cancel" (some "/r") hookFailedSt).2) := by
  refine ⟨by decide, by decide, by decide, by decide, by decide, by decide,
    by decide, ?_⟩
  intro c d hc
  have h : (handleHookFailureChoice "cancel" (some "/r") hookFailedSt).2 =
      [Effect.listRefresh none] := by decide
  rw [h] at hc
  simp at hc

/-- C6, evaluated: a successful create with a configured hook enters
hook-running mode with the new path pending and starts the hook; a hook
exit code 0 schedules the fixed display delay; but the timeout callback
launches nothing, because it calls `hideHookOutput` (nulling
`pendingWorktreePath`) before testing `if (this.pendingWorktreePath)` — so
the configured tool is never launched on hook success. With no hook
configured the tool is launched immediately. -/
theorem createFlow_hook_eval :
    hookRunSt.isRunningHook = true ∧
    hookRunSt.pendingWorktreePath = some "/r-worktrees/feat" ∧
    (handleCreateWorktree "feat" (.ok "/r-worktrees/feat")
        { postCreateHook := some "exit 1" } (some "/r") createModeSt).2 =
      [Effect.runHookProc "/r-worktrees/feat" "exit 1"] ∧
    (onHookComplete (hookResultOfExit (some 0))
        hookRunSt).1.hookTimeoutPending = true ∧
    (onHookSuccessTimeout
        (onHookComplete (hookResultOfExit (some 0)) hookRunSt).1).2 = [] ∧
    (handleCreateWorktree "feat" (.ok "/r-worktrees/feat") {}
        (some "/r") createModeSt).2 =
      [Effect.listRefresh none, Effect.destroyRenderer,
        Effect.launch (some "/r-worktrees/feat") none] := by
  exact ⟨by decide, by decide, by decide, by decide, by decide, by decide⟩

end OCW
